import Mathlib

/-
  Shallow embedding of the MoarVM spesh optimizer (src/spesh/optimize.c) and
  the callsite interner (src/core/callsite.c), together with theorems checking
  the specification's claims against this embedding.

  Modelling conventions:
  * Machine pointers are modelled as natural-number identities; the null
    pointer is 0 (or `Option.none` where a collaborator's result is tested
    with MVM_is_null).
  * C unions (MVMSpeshOperand, the fact value register) are modelled as sum
    types / records; reading a member other than the one last written is
    modelled by a fixed default, mirroring that such reads never decide the
    claims below.
  * External collaborators (method cache, type-check cache, REPR and
    container-spec spesh hooks, attribute fetcher, multi-dispatch cache,
    inliner, boolification evaluator) are fields of an `Env` record, as they
    live outside the two translated files.
  * Heap allocation details (chunked growth of spesh slots and intern
    buckets) are elided: lists grow one element at a time, which preserves
    every observable value (contents and counts).
-/

set_option maxHeartbeats 2000000
set_option linter.unusedVariables false
set_option linter.unreachableTactic false
set_option linter.unusedTactic false

namespace MoarSpesh

/-- Modelled from the spec: VM objects are identified by a natural number;
0 stands for the C null pointer. -/
abbrev Obj := Nat

/-- Modelled from the spec: VM strings compared by `MVM_string_equal` are
identified with their content, so VM string equality is equality of ids. -/
abbrev StrV := Nat

/-- Modelled from the spec: MVM_INTERN_ARITY_LIMIT, a compile-time arity bound
for interning (the header defining it is not among the provided sources). -/
def MVM_INTERN_ARITY_LIMIT : Nat := 8

/-- Modelled from the spec: MAX_ARGS_FOR_OPT, the number of argument slots the
call optimizer tracks (header not among the provided sources). -/
def MAX_ARGS_FOR_OPT : Nat := 4

/-- Modelled from the spec: MVM_SPESH_LOG_RUNS, the per-slot stride of the
logging table (header not among the provided sources). -/
def MVM_SPESH_LOG_RUNS : Nat := 8

/-- Modelled from the spec: representation ids are compile-time constants;
only their distinctness matters to the translated code. -/
def MVM_REPR_ID_MVMArray : Nat := 1
def MVM_REPR_ID_MVMHash : Nat := 2
def MVM_REPR_ID_P6int : Nat := 3
def MVM_REPR_ID_P6num : Nat := 4
def MVM_REPR_ID_P6str : Nat := 5
def MVM_REPR_ID_MVMCode : Nat := 6

/-- Modelled from the spec: boolification modes (enum constants from a header
not among the provided sources); only CALL_METHOD is treated specially. -/
def MVM_BOOL_MODE_BOOL : Nat := 0
def MVM_BOOL_MODE_UNBOX_INT : Nat := 1
def MVM_BOOL_MODE_UNBOX_NUM : Nat := 2
def MVM_BOOL_MODE_UNBOX_STR_NOT_EMPTY : Nat := 3
def MVM_BOOL_MODE_UNBOX_STR_NOT_EMPTY_OR_ZERO : Nat := 4
def MVM_BOOL_MODE_NOT_TYPE_OBJECT : Nat := 5
def MVM_BOOL_MODE_BIGINT : Nat := 6
def MVM_BOOL_MODE_ITER : Nat := 7
def MVM_BOOL_MODE_HAS_ELEMS : Nat := 8
def MVM_BOOL_MODE_CALL_METHOD : Nat := 9

/-- Modelled from the spec: spesh argument-guard kinds (enum constants from a
header not among the provided sources). -/
def MVM_SPESH_GUARD_CONC : Nat := 1
def MVM_SPESH_GUARD_TYPE : Nat := 2
def MVM_SPESH_GUARD_DC_CONC : Nat := 3
def MVM_SPESH_GUARD_DC_TYPE : Nat := 4

/-! ## Callsite descriptors and the intern table (src/core/callsite.c) -/

/-- A callsite descriptor. `id` models pointer identity; `arg_names = none`
models a NULL names array. -/
structure MVMCallsite where
  id : Nat
  arg_flags : List Nat
  num_pos : Nat
  arg_count : Nat
  has_flattening : Bool
  arg_names : Option (List StrV)
  is_interned : Bool
deriving DecidableEq, Repr

/-- VM string equality (MVM_string_equal); strings are identified with their
content id, see `StrV`. -/
def MVM_string_equal (a b : StrV) : Bool := a == b

/-- Name of the i-th named argument; out-of-range access (which in C would
read past the array) yields string id 0. -/
def cs_name (cs : MVMCallsite) (i : Nat) : StrV :=
  (cs.arg_names.getD []).getD i 0

/-- Translation of callsites_equal: memcmp of the first num_flags flag bytes
and VM string equality of the first num_nameds names. -/
def callsites_equal (cs1 cs2 : MVMCallsite) (num_flags num_nameds : Nat) : Bool :=
  ((List.range num_flags).all fun i => cs1.arg_flags.getD i 0 == cs2.arg_flags.getD i 0) &&
  ((List.range num_nameds).all fun i => MVM_string_equal (cs_name cs1 i) (cs_name cs2 i))

/-- Number of named arguments, as computed in MVM_callsite_try_intern. -/
def cs_num_nameds (cs : MVMCallsite) : Nat := (cs.arg_count - cs.num_pos) / 2

/-- Total number of flags, as computed in MVM_callsite_try_intern. -/
def cs_num_flags (cs : MVMCallsite) : Nat := cs.num_pos + cs_num_nameds cs

/-- The intern table: for each arity, the ordered bucket of interned
callsites (MVMCallsiteInterns, with num_by_arity the bucket length). -/
structure MVMCallsiteInterns where
  by_arity : Nat → List MVMCallsite

/-- The empty intern table. -/
def empty_interns : MVMCallsiteInterns := ⟨fun _ => []⟩

/-- Translation of MVM_callsite_try_intern. Returns the updated table and the
value of *cs_ptr after the call. Freeing the caller's callsite on a hit and
the chunked bucket growth are allocation details with no observable effect
here; the mutex is the single-threaded identity. -/
def MVM_callsite_try_intern (interns : MVMCallsiteInterns) (cs : MVMCallsite) :
    MVMCallsiteInterns × MVMCallsite :=
  let num_nameds := (cs.arg_count - cs.num_pos) / 2
  let num_flags := cs.num_pos + num_nameds
  if cs.has_flattening then (interns, cs)
  else if num_nameds > 0 && cs.arg_names == none then (interns, cs)
  else if num_flags ≥ MVM_INTERN_ARITY_LIMIT then (interns, cs)
  else
    match (interns.by_arity num_flags).find? (fun c => callsites_equal c cs num_flags num_nameds) with
    | some c => (interns, c)
    | none =>
      let cs' := { cs with is_interned := true }
      (⟨fun k => if k = num_flags then interns.by_arity num_flags ++ [cs'] else interns.by_arity k⟩,
       cs')

/-- Interns a whole sequence of callsites, starting from the empty table. -/
def intern_all (css : List MVMCallsite) : MVMCallsiteInterns :=
  css.foldl (fun it cs => (MVM_callsite_try_intern it cs).1) empty_interns

/-! ## The spesh graph data model (src/spesh/optimize.c and its headers) -/

/-- Opcodes are enum constants, as in the C ops table; named below are the
ones src/spesh/optimize.c dispatches on or writes, every other opcode of the
instruction set is `Op.other n` (the optimizer treats them all alike, via the
switch default). `Op.phi` is MVM_SSA_PHI. -/
abbrev Op := Nat

def Op.set : Op := 1
def Op.if_i : Op := 2
def Op.unless_i : Op := 3
def Op.if_s : Op := 4
def Op.unless_s : Op := 5
def Op.if_n : Op := 6
def Op.unless_n : Op := 7
def Op.if_o : Op := 8
def Op.unless_o : Op := 9
def Op.ifnonnull : Op := 10
def Op.goto : Op := 11
def Op.prepargs : Op := 12
def Op.arg_i : Op := 13
def Op.arg_n : Op := 14
def Op.arg_s : Op := 15
def Op.arg_o : Op := 16
def Op.argconst_i : Op := 17
def Op.argconst_n : Op := 18
def Op.argconst_s : Op := 19
def Op.coerce_in : Op := 20
def Op.invoke_v : Op := 21
def Op.invoke_i : Op := 22
def Op.invoke_n : Op := 23
def Op.invoke_s : Op := 24
def Op.invoke_o : Op := 25
def Op.islist : Op := 26
def Op.ishash : Op := 27
def Op.isint : Op := 28
def Op.isnum : Op := 29
def Op.isstr : Op := 30
def Op.isnonnull : Op := 31
def Op.findmeth : Op := 32
def Op.can : Op := 33
def Op.can_s : Op := 34
def Op.create : Op := 35
def Op.isconcrete : Op := 36
def Op.istype : Op := 37
def Op.bindattr_i : Op := 38
def Op.bindattr_n : Op := 39
def Op.bindattr_s : Op := 40
def Op.bindattr_o : Op := 41
def Op.bindattrs_i : Op := 42
def Op.bindattrs_n : Op := 43
def Op.bindattrs_s : Op := 44
def Op.bindattrs_o : Op := 45
def Op.getattr_i : Op := 46
def Op.getattr_n : Op := 47
def Op.getattr_s : Op := 48
def Op.getattr_o : Op := 49
def Op.getattrs_i : Op := 50
def Op.getattrs_n : Op := 51
def Op.getattrs_s : Op := 52
def Op.getattrs_o : Op := 53
def Op.box_i : Op := 54
def Op.box_n : Op := 55
def Op.box_s : Op := 56
def Op.unbox_i : Op := 57
def Op.unbox_n : Op := 58
def Op.unbox_s : Op := 59
def Op.elems : Op := 60
def Op.hllize : Op := 61
def Op.decont : Op := 62
def Op.assertparamcheck : Op := 63
def Op.getlexstatic_o : Op := 64
def Op.getlexperinvtype_o : Op := 65
def Op.sp_log : Op := 66
def Op.sp_osrfinalize : Op := 67
def Op.sp_getspeshslot : Op := 68
def Op.sp_findmeth : Op := 69
def Op.sp_fastinvoke_v : Op := 70
def Op.sp_fastinvoke_i : Op := 71
def Op.sp_fastinvoke_n : Op := 72
def Op.sp_fastinvoke_s : Op := 73
def Op.sp_fastinvoke_o : Op := 74
def Op.const_i64_16 : Op := 75
def Op.const_n64 : Op := 76
def Op.phi : Op := 77
def Op.other (code : Nat) : Op := 1000 + code

/-- The read/write classification of one operand position, the part of the
operand descriptor that MVM_operand_rw_mask extracts. -/
inductive OperandSpec where
  | read_reg
  | write_reg
  | literal
  | other_spec
deriving DecidableEq, Repr

/-- An opcode descriptor (MVMOpInfo): opcode, purity flag, operand count and
per-operand read/write classification. -/
structure OpInfo where
  opcode : Op
  pure : Bool
  num_operands : Nat
  operands : List OperandSpec
deriving DecidableEq, Repr

/-- A 64-bit float value: the bit pattern is abstract, but whether it compares
equal to 0.0 is carried explicitly (the only float operation the translated
code performs). -/
structure MVMnum64 where
  bits : Int
  is_zero : Bool
deriving DecidableEq, Repr

/-- Conversion of an integer constant to a float, as in optimize_coerce. -/
def int_to_n64 (i : Int) : MVMnum64 := ⟨i, i = 0⟩

/-- An instruction operand (the MVMSpeshOperand union). -/
inductive Operand where
  | reg (orig i : Nat)
  | lit_i16 (v : Int)
  | lit_i64 (v : Int)
  | lit_n64 (v : MVMnum64)
  | lit_str_idx (v : Nat)
  | callsite_idx (v : Nat)
  | ins_bb (bb : Nat)
deriving DecidableEq, Repr

instance : Inhabited Operand := ⟨Operand.lit_i16 0⟩

/-- Union member reads; reading a member other than the stored one yields a
default, standing for the unspecified C reinterpretation. -/
def Operand.i16val : Operand → Int
  | .lit_i16 v => v
  | _ => 0

def Operand.strIdx : Operand → Nat
  | .lit_str_idx v => v
  | _ => 0

def Operand.csIdx : Operand → Nat
  | .callsite_idx v => v
  | _ => 0

def Operand.bbTarget : Operand → Nat
  | .ins_bb b => b
  | _ => 0

/-- The (origin, SSA version) key of a register operand; non-register
operands map to (0, 0) (a C union misread). -/
def Operand.key : Operand → Nat × Nat
  | .reg o i => (o, i)
  | _ => (0, 0)

/-- The value payload of a fact (an MVMRegister union); members are stored
independently, so a member read returns the last write to that member. -/
structure SpeshValue where
  i64 : Int
  i16 : Int
  n64 : MVMnum64
  o : Obj
  s : StrV
deriving DecidableEq, Repr

def SpeshValue.empty : SpeshValue := ⟨0, 0, ⟨0, true⟩, 0, 0⟩

/-- The fact bitset (MVM_SPESH_FACT_* flags), one Bool per bit. -/
structure SpeshFactFlags where
  known_type : Bool
  known_value : Bool
  known_decont_type : Bool
  concrete : Bool
  typeobj : Bool
  deconted : Bool
  decont_concrete : Bool
  decont_typeobj : Bool
  from_log_guard : Bool
deriving DecidableEq, Repr

def SpeshFactFlags.empty : SpeshFactFlags :=
  ⟨false, false, false, false, false, false, false, false, false⟩

/-- Facts for one (register origin, SSA version): MVMSpeshFacts. -/
structure SpeshFacts where
  flags : SpeshFactFlags
  usages : Int
  type : Obj
  decont_type : Obj
  value : SpeshValue
  log_guard : Nat
deriving DecidableEq, Repr

def SpeshFacts.empty : SpeshFacts :=
  ⟨SpeshFactFlags.empty, 0, 0, 0, SpeshValue.empty, 0⟩

/-- An instruction (MVMSpeshIns); `id` models node identity for deletion. -/
structure Ins where
  id : Nat
  info : OpInfo
  operands : List Operand
deriving DecidableEq, Repr

instance : Inhabited Ins :=
  ⟨⟨0, ⟨Op.other 0, false, 0, []⟩, []⟩⟩

/-- A basic block (MVMSpeshBB); `succ` and `children` hold block ids, the
linear_next chain is kept in the graph. -/
structure SpeshBB where
  id : Nat
  idx : Nat
  ins : List Ins
  succ : List Nat
  children : List Nat
  inlined : Bool
deriving DecidableEq, Repr

/-- A log-guard record (graph log_guards array entry). -/
structure LogGuard where
  ins : Nat
  bb : Nat
  used : Bool
deriving DecidableEq, Repr

instance : Inhabited LogGuard := ⟨⟨0, 0, false⟩⟩

/-- The spesh graph. `blocks` stores every block by id; `chain` is the
linear_next order starting at the entry block; `facts` is the per
(origin, SSA version) fact table; `strings` and `callsites` model the
compilation unit's tables; `next_ins_id` supplies identities for
instructions the optimizer allocates. -/
structure SpeshGraph where
  blocks : List SpeshBB
  chain : List Nat
  num_bbs : Nat
  facts : Nat → Nat → SpeshFacts
  spesh_slots : List (Option Obj)
  log_guards : List LogGuard
  log_slots : List (Option Obj)
  strings : Nat → StrV
  callsites : Nat → Nat
  hll_config : Nat
  arg_guards : List Nat
  next_ins_id : Nat

/-- Looks a block up by id (pointer dereference). -/
def get_bb (g : SpeshGraph) (bbId : Nat) : Option SpeshBB :=
  g.blocks.find? (fun b => b.id = bbId)

/-- Rewrites the block with the given id in place. -/
def update_bb (g : SpeshGraph) (bbId : Nat) (f : SpeshBB → SpeshBB) : SpeshGraph :=
  { g with blocks := g.blocks.map (fun b => if b.id = bbId then f b else b) }

/-- The block after `bbId` on the linear_next chain. -/
def chain_next : List Nat → Nat → Option Nat
  | [], _ => none
  | [_], _ => none
  | a :: b :: rest, x => if a = x then some b else chain_next (b :: rest) x

/-- Updates the fact record of one register key. -/
def update_facts (g : SpeshGraph) (k : Nat × Nat) (f : SpeshFacts → SpeshFacts) : SpeshGraph :=
  { g with facts := fun o i => if o = k.1 ∧ i = k.2 then f (g.facts o i) else g.facts o i }

/-- Marks the log guard with the given index used (log_guards[i].used = 1). -/
def set_log_guard_used (g : SpeshGraph) (i : Nat) : SpeshGraph :=
  { g with log_guards := g.log_guards.set i { g.log_guards.getD i default with used := true } }

/-- Translation of get_facts_direct: read the fact record of an operand. -/
def get_facts_direct (g : SpeshGraph) (o : Operand) : SpeshFacts :=
  g.facts o.key.1 o.key.2

/-- Translation of MVM_spesh_get_facts: read the facts, marking the operand's
log guard used when the facts came from one. -/
def MVM_spesh_get_facts (g : SpeshGraph) (o : Operand) : SpeshGraph × SpeshFacts :=
  let facts := get_facts_direct g o
  if facts.flags.from_log_guard then
    (set_log_guard_used g facts.log_guard, facts)
  else
    (g, facts)

/-- Translation of MVM_spesh_get_string: fetch a string constant. -/
def MVM_spesh_get_string (g : SpeshGraph) (o : Operand) : StrV :=
  g.strings o.strIdx

/-- Translation of copy_facts: copy flags, type, decont type, value and log
guard (not usages) from one register's facts to another's. -/
def copy_facts (g : SpeshGraph) (to_o from_o : Operand) : SpeshGraph :=
  let ffacts := get_facts_direct g from_o
  update_facts g to_o.key (fun t =>
    { t with flags := ffacts.flags, type := ffacts.type,
             decont_type := ffacts.decont_type, value := ffacts.value,
             log_guard := ffacts.log_guard })

/-- Translation of MVM_spesh_add_spesh_slot: append a value, return its
index (chunked reallocation elided). -/
def MVM_spesh_add_spesh_slot (g : SpeshGraph) (c : Option Obj) : SpeshGraph × Int :=
  ({ g with spesh_slots := g.spesh_slots ++ [c] }, (g.spesh_slots.length : Int))

/-- Operand access, ins->operands[i]; out-of-range reads (C UB) default. -/
def Ins.opnd (ins : Ins) (i : Nat) : Operand := ins.operands.getD i default

/-! ## External collaborators (outside the two translated files) -/

/-- A container spec (MVMContainerSpec), keyed from the STable of an object:
whether fetch never invokes, and the optional spesh hook. The hook receives
the graph, the current block id and the instruction, and may rewrite both;
hooks that insert instructions are outside this model (no claim relies on a
hook). -/
structure MVMContainerSpec where
  fetch_never_invokes : Bool
  spesh : Option (SpeshGraph → Nat → Ins → SpeshGraph × Ins)

/-- An invocation spec (MVMInvocationSpec); class handles are objects with 0
for null, attribute name and hint are fused into one selector. -/
structure MVMInvocationSpec where
  md_class_handle : Obj
  md_valid_attr : Nat
  md_cache_attr : Nat
  class_handle : Obj
  attr_sel : Nat

/-- One argument guard of a spesh candidate (MVMSpeshGuard). -/
structure MVMSpeshGuard where
  kind : Nat
  slot : Nat
  match_st : Nat
deriving DecidableEq, Repr

/-- A spesh candidate of a callee's static frame: its callsite (by pointer
identity) and its guards. -/
structure MVMSpeshCandidate where
  cs : Nat
  guards : List MVMSpeshGuard
deriving DecidableEq, Repr

/-- The sliding per-block argument-tracking record (MVMSpeshCallInfo).
`arg_facts` stores register keys, modelling the C fact-table pointers; the C
struct is stack garbage before the first prepargs, modelled as `none`. -/
structure MVMSpeshCallInfo where
  cs : Option Nat
  prepargs_ins : Option Nat
  arg_is_const : Nat → Bool
  arg_facts : Nat → Option (Nat × Nat)
  arg_ins : Nat → Option Nat

def MVMSpeshCallInfo.init : MVMSpeshCallInfo :=
  ⟨none, none, fun _ => false, fun _ => none, fun _ => none⟩

/-- The collaborators the optimizer calls (spec section 6): caches, REPR and
container hooks, the attribute fetcher, the multi cache, the inliner, the
boolification evaluator. `cont_spec x` models STABLE(x)->container_spec,
`hll_owner_of t` models STABLE(t)->hll_owner, `stable_of x` models STABLE(x)
as an identity. -/
structure Env where
  repr_id : Obj → Nat
  stable_of : Obj → Nat
  what_of : Obj → Obj
  is_concrete : Obj → Bool
  cont_spec : Obj → Option MVMContainerSpec
  find_method_cache_only : Obj → StrV → Option Obj
  can_method_cache_only : Obj → StrV → Int
  try_cache_type_check : Obj → Obj → Option Int
  bool_spec : Obj → Option Nat
  coerce_istrue : Obj → Int
  hll_owner_of : Obj → Nat
  repr_spesh : Obj → Option (SpeshGraph → Nat → Ins → SpeshGraph × Ins)
  invocation_spec : Obj → Option MVMInvocationSpec
  get_attr_i : Obj → Obj → Nat → Int
  get_attr_o : Obj → Obj → Nat → Obj
  multi_cache_find_spesh : Obj → MVMSpeshCallInfo → Option Obj
  is_compiler_stub : Obj → Bool
  spesh_candidates : Obj → List MVMSpeshCandidate
  inline_try_get_graph : Obj → Nat → Bool
  spesh_inline : SpeshGraph → MVMSpeshCallInfo → Nat → Ins → SpeshGraph

/-! ## Opcode descriptors the optimizer writes (MVM_op_get_op results)

Modelled from the spec: the generated ops table is not among the provided
sources; sections 3 and 6 of the spec give the operand shapes, and purity
marks constant loads and register copies pure. -/

def op_info_goto : OpInfo := ⟨Op.goto, false, 1, [.other_spec]⟩
def op_info_const_i64_16 : OpInfo := ⟨Op.const_i64_16, true, 2, [.write_reg, .literal]⟩
def op_info_const_n64 : OpInfo := ⟨Op.const_n64, true, 2, [.write_reg, .literal]⟩
def op_info_set : OpInfo := ⟨Op.set, true, 2, [.write_reg, .read_reg]⟩
def op_info_isnonnull : OpInfo := ⟨Op.isnonnull, true, 2, [.write_reg, .read_reg]⟩
def op_info_sp_getspeshslot : OpInfo := ⟨Op.sp_getspeshslot, true, 2, [.write_reg, .literal]⟩
def op_info_sp_findmeth : OpInfo := ⟨Op.sp_findmeth, false, 4, [.write_reg, .read_reg, .literal, .literal]⟩
def op_info_sp_fastinvoke_v : OpInfo := ⟨Op.sp_fastinvoke_v, false, 2, [.read_reg, .literal]⟩
def op_info_sp_fastinvoke_i : OpInfo := ⟨Op.sp_fastinvoke_i, false, 3, [.write_reg, .read_reg, .literal]⟩
def op_info_sp_fastinvoke_n : OpInfo := ⟨Op.sp_fastinvoke_n, false, 3, [.write_reg, .read_reg, .literal]⟩
def op_info_sp_fastinvoke_s : OpInfo := ⟨Op.sp_fastinvoke_s, false, 3, [.write_reg, .read_reg, .literal]⟩
def op_info_sp_fastinvoke_o : OpInfo := ⟨Op.sp_fastinvoke_o, false, 3, [.write_reg, .read_reg, .literal]⟩

/-! ## Per-opcode rewrite rules (optimize.c, in source order) -/

/-- The `if (!resolved)` tail of optimize_method_lookup: rewrite to the
caching sp_findmeth form with a fourth operand naming the first of two
freshly appended NULL spesh slots. -/
def sp_findmeth_rewrite (g : SpeshGraph) (ins : Ins) : SpeshGraph × Ins :=
  let q := MVM_spesh_add_spesh_slot g none
  let g2 := (MVM_spesh_add_spesh_slot q.1 none).1
  (g2, { ins with info := op_info_sp_findmeth,
                  operands := [ins.opnd 0, ins.opnd 1, ins.opnd 2, Operand.lit_i16 q.2] })

/-- Translation of optimize_method_lookup. -/
def optimize_method_lookup (env : Env) (g : SpeshGraph) (ins : Ins) : SpeshGraph × Ins :=
  let k0 := (ins.opnd 0).key
  let k1 := (ins.opnd 1).key
  let p := MVM_spesh_get_facts g (ins.opnd 1)
  let g := p.1
  let obj_facts := p.2
  if obj_facts.flags.known_type then
    let name := MVM_spesh_get_string g (ins.opnd 2)
    match env.find_method_cache_only obj_facts.type name with
    | some meth =>
      let q := MVM_spesh_add_spesh_slot g (some meth)
      let g := q.1
      let ss := q.2
      let r := MVM_spesh_get_facts g (ins.opnd 0)
      let g := update_facts r.1 k0 (fun f =>
        { f with flags := { f.flags with known_value := true },
                 value := { f.value with o := meth } })
      let s := MVM_spesh_get_facts g (ins.opnd 1)
      let g := update_facts s.1 k1 (fun f => { f with usages := f.usages - 1 })
      (g, { ins with info := op_info_sp_getspeshslot,
                     operands := ins.operands.set 1 (Operand.lit_i16 ss) })
    | none => sp_findmeth_rewrite g ins
  else sp_findmeth_rewrite g ins

/-- Translation of optimize_istype. -/
def optimize_istype (env : Env) (g : SpeshGraph) (ins : Ins) : SpeshGraph × Ins :=
  let k0 := (ins.opnd 0).key
  let k1 := (ins.opnd 1).key
  let k2 := (ins.opnd 2).key
  let p1 := MVM_spesh_get_facts g (ins.opnd 1)
  let p2 := MVM_spesh_get_facts p1.1 (ins.opnd 2)
  let g := p2.1
  let obj_facts := p1.2
  let type_facts := p2.2
  if type_facts.flags.known_type && obj_facts.flags.known_type then
    match env.try_cache_type_check obj_facts.type type_facts.type with
    | none => (g, ins)
    | some result =>
      let r := MVM_spesh_get_facts g (ins.opnd 0)
      let g := update_facts r.1 k0 (fun f =>
        { f with flags := { f.flags with known_value := true },
                 value := { f.value with i16 := result } })
      let g := update_facts g k1 (fun f => { f with usages := f.usages - 1 })
      let g := update_facts g k2 (fun f => { f with usages := f.usages - 1 })
      (g, { ins with info := op_info_const_i64_16,
                     operands := ins.operands.set 1 (Operand.lit_i16 result) })
  else (g, ins)

/-- Translation of optimize_is_reprid. -/
def optimize_is_reprid (env : Env) (g : SpeshGraph) (ins : Ins) : SpeshGraph × Ins :=
  let k0 := (ins.opnd 0).key
  let p := MVM_spesh_get_facts g (ins.opnd 1)
  let g := p.1
  let obj_facts := p.2
  if !obj_facts.flags.known_type then (g, ins)
  else
    let wanted : Option Nat :=
      if ins.info.opcode = Op.islist then some MVM_REPR_ID_MVMArray
      else if ins.info.opcode = Op.ishash then some MVM_REPR_ID_MVMHash
      else if ins.info.opcode = Op.isint then some MVM_REPR_ID_P6int
      else if ins.info.opcode = Op.isnum then some MVM_REPR_ID_P6num
      else if ins.info.opcode = Op.isstr then some MVM_REPR_ID_P6str
      else none
    match wanted with
    | none => (g, ins)
    | some wanted_repr_id =>
      if env.repr_id obj_facts.type = wanted_repr_id then
        (g, { ins with info := op_info_isnonnull })
      else
        let r := MVM_spesh_get_facts g (ins.opnd 0)
        let g := update_facts r.1 k0 (fun f =>
          { f with flags := { f.flags with known_value := true },
                   value := { f.value with i64 := 0 } })
        (g, { ins with info := op_info_const_i64_16,
                       operands := ins.operands.set 1 (Operand.lit_i16 0) })

/-- Translation of optimize_isconcrete. -/
def optimize_isconcrete (env : Env) (g : SpeshGraph) (ins : Ins) : SpeshGraph × Ins :=
  let k0 := (ins.opnd 0).key
  let k1 := (ins.opnd 1).key
  let p := MVM_spesh_get_facts g (ins.opnd 1)
  let g := p.1
  let obj_facts := p.2
  if obj_facts.flags.concrete || obj_facts.flags.typeobj then
    let r := MVM_spesh_get_facts g (ins.opnd 0)
    let v : Int := if obj_facts.flags.concrete then 1 else 0
    let g := update_facts r.1 k0 (fun f =>
      { f with flags := { f.flags with known_value := true },
               value := { f.value with i16 := v } })
    let g := update_facts g k1 (fun f => { f with usages := f.usages - 1 })
    (g, { ins with info := op_info_const_i64_16,
                   operands := ins.operands.set 1 (Operand.lit_i16 v) })
  else (g, ins)

/-- Translation of optimize_iffy. `succ` is the current block's successor
array and `linearNext` its linear_next block; the result instruction is
`none` when the branch was deleted. The i64 and boolification truth values
pass through the C MVMuint8 truncation (mod 256). -/
def optimize_iffy (env : Env) (g : SpeshGraph) (succ : List Nat) (linearNext : Option Nat)
    (ins : Ins) : SpeshGraph × List Nat × Option Ins :=
  let k0 := (ins.opnd 0).key
  let p := MVM_spesh_get_facts g (ins.opnd 0)
  let g := p.1
  let flag_facts := p.2
  let opc := ins.info.opcode
  let negated_op : Option Nat :=
    if opc = Op.if_i ∨ opc = Op.if_s ∨ opc = Op.if_n ∨ opc = Op.if_o ∨ opc = Op.ifnonnull then
      some 0
    else if opc = Op.unless_i ∨ opc = Op.unless_s ∨ opc = Op.unless_n ∨ opc = Op.unless_o then
      some 1
    else none
  match negated_op with
  | none => (g, succ, some ins)
  | some negated =>
    if flag_facts.flags.known_value then
      let truthvalue : Option Nat :=
        if opc = Op.if_i ∨ opc = Op.unless_i then
          some (flag_facts.value.i64 % 256).toNat
        else if opc = Op.if_o ∨ opc = Op.unless_o then
          let objval := flag_facts.value.o
          let mode := (env.bool_spec objval).getD MVM_BOOL_MODE_NOT_TYPE_OBJECT
          if mode = MVM_BOOL_MODE_UNBOX_INT ∨ mode = MVM_BOOL_MODE_UNBOX_NUM ∨
             mode = MVM_BOOL_MODE_UNBOX_STR_NOT_EMPTY ∨
             mode = MVM_BOOL_MODE_UNBOX_STR_NOT_EMPTY_OR_ZERO ∨
             mode = MVM_BOOL_MODE_BIGINT ∨ mode = MVM_BOOL_MODE_ITER ∨
             mode = MVM_BOOL_MODE_HAS_ELEMS ∨ mode = MVM_BOOL_MODE_NOT_TYPE_OBJECT then
            some (env.coerce_istrue objval % 256).toNat
          else none
        else if opc = Op.if_n ∨ opc = Op.unless_n then
          some (if flag_facts.value.n64.is_zero then 0 else 1)
        else none
      match truthvalue with
      | none => (g, succ, some ins)
      | some tv =>
        let g := update_facts g k0 (fun f => { f with usages := f.usages - 1 })
        if tv ≠ negated then
          let succ' := match linearNext with
            | some ln => succ.erase ln
            | none => succ
          (g, succ',
           some { ins with info := op_info_goto,
                           operands := ins.operands.set 0 (ins.opnd 1) })
        else
          (g, succ.erase (ins.opnd 1).bbTarget, none)
    else (g, succ, some ins)

/-- Translation of optimize_hllize. -/
def optimize_hllize (env : Env) (g : SpeshGraph) (ins : Ins) : SpeshGraph × Ins :=
  let p := MVM_spesh_get_facts g (ins.opnd 1)
  let g := p.1
  let obj_facts := p.2
  if obj_facts.flags.known_type && obj_facts.type ≠ 0 then
    if env.hll_owner_of obj_facts.type = g.hll_config then
      (copy_facts g (ins.opnd 0) (ins.opnd 1), { ins with info := op_info_set })
    else (g, ins)
  else (g, ins)

/-- Translation of optimize_decont. -/
def optimize_decont (env : Env) (g : SpeshGraph) (bbId : Nat) (ins : Ins) : SpeshGraph × Ins :=
  let k1 := (ins.opnd 1).key
  let p := MVM_spesh_get_facts g (ins.opnd 1)
  let g := p.1
  let obj_facts := p.2
  if obj_facts.flags.deconted || obj_facts.flags.typeobj then
    (copy_facts g (ins.opnd 0) (ins.opnd 1), { ins with info := op_info_set })
  else
    let gi :=
      if obj_facts.flags.known_type && obj_facts.type ≠ 0 then
        match env.cont_spec obj_facts.type with
        | some cspec =>
          if cspec.fetch_never_invokes then
            match cspec.spesh with
            | some hook => hook g bbId ins
            | none => (g, ins)
          else (g, ins)
        | none => (g, ins)
      else (g, ins)
    let g := gi.1
    let ins := gi.2
    let obj_facts2 := g.facts k1.1 k1.2
    let r := MVM_spesh_get_facts g (ins.opnd 0)
    let g := r.1
    let g :=
      if obj_facts2.flags.known_decont_type then
        update_facts g (ins.opnd 0).key (fun f =>
          { f with type := obj_facts2.decont_type,
                   flags := { f.flags with known_type := true } })
      else g
    let g :=
      if obj_facts2.flags.decont_concrete then
        update_facts g (ins.opnd 0).key (fun f =>
          { f with flags := { f.flags with concrete := true } })
      else if obj_facts2.flags.decont_typeobj then
        update_facts g (ins.opnd 0).key (fun f =>
          { f with flags := { f.flags with typeobj := true } })
      else g
    (g, ins)

/-- Translation of optimize_assertparamcheck; `none` means deleted. -/
def optimize_assertparamcheck (env : Env) (g : SpeshGraph) (bbId : Nat) (ins : Ins) :
    SpeshGraph × Option Ins :=
  let k0 := (ins.opnd 0).key
  let p := MVM_spesh_get_facts g (ins.opnd 0)
  let g := p.1
  let facts := p.2
  if facts.flags.known_value && facts.value.i64 ≠ 0 then
    (update_facts g k0 (fun f => { f with usages := f.usages - 1 }), none)
  else (g, ins)

/-- Translation of optimize_can_op (present in the source, but its call site
in optimize_bb is commented out). -/
def optimize_can_op (env : Env) (g : SpeshGraph) (bbId : Nat) (ins : Ins) : SpeshGraph × Ins :=
  let k0 := (ins.opnd 0).key
  let k1 := (ins.opnd 1).key
  let k2 := (ins.opnd 2).key
  let p := MVM_spesh_get_facts g (ins.opnd 1)
  let g := p.1
  let obj_facts := p.2
  if !obj_facts.flags.known_type || obj_facts.type = 0 then (g, ins)
  else
    let stage : SpeshGraph × Option StrV :=
      if ins.info.opcode = Op.can_s then
        let q := MVM_spesh_get_facts g (ins.opnd 2)
        if !q.2.flags.known_value then (q.1, none) else (q.1, some q.2.value.s)
      else (g, some (MVM_spesh_get_string g (ins.opnd 2)))
    match stage.2 with
    | none => (stage.1, ins)
    | some method_name =>
      let g := stage.1
      let can_result := env.can_method_cache_only obj_facts.type method_name
      if can_result = -1 then (g, ins)
      else
        let g :=
          if ins.info.opcode = Op.can_s then
            let q := MVM_spesh_get_facts g (ins.opnd 2)
            update_facts q.1 k2 (fun f => { f with usages := f.usages - 1 })
          else g
        let r := MVM_spesh_get_facts g (ins.opnd 0)
        let g := update_facts r.1 k0 (fun f =>
          { f with flags := { f.flags with known_value := true },
                   value := { f.value with i16 := can_result } })
        let g := update_facts g k1 (fun f => { f with usages := f.usages - 1 })
        (g, { ins with info := op_info_const_i64_16,
                       operands := ins.operands.set 1 (Operand.lit_i16 can_result) })

/-- Translation of optimize_coerce. -/
def optimize_coerce (env : Env) (g : SpeshGraph) (bbId : Nat) (ins : Ins) : SpeshGraph × Ins :=
  let k0 := (ins.opnd 0).key
  let k1 := (ins.opnd 1).key
  let p := MVM_spesh_get_facts g (ins.opnd 1)
  let g := p.1
  let facts := p.2
  if facts.flags.known_value then
    let r := MVM_spesh_get_facts g (ins.opnd 0)
    let g := r.1
    let result := int_to_n64 facts.value.i64
    let g := update_facts g k1 (fun f => { f with usages := f.usages - 1 })
    let g := update_facts g k0 (fun f =>
      { f with flags := { f.flags with known_value := true },
               value := { f.value with n64 := result } })
    (g, { ins with info := op_info_const_n64,
                   operands := ins.operands.set 1 (Operand.lit_n64 result) })
  else (g, ins)

/-- Translation of optimize_repr_op. -/
def optimize_repr_op (env : Env) (g : SpeshGraph) (bbId : Nat) (ins : Ins)
    (type_operand : Nat) : SpeshGraph × Ins :=
  let p := MVM_spesh_get_facts g (ins.opnd type_operand)
  let g := p.1
  let facts := p.2
  if facts.flags.known_type && facts.type ≠ 0 then
    match env.repr_spesh facts.type with
    | some hook => hook g bbId ins
    | none => (g, ins)
  else (g, ins)

/-- Translation of specialized_on_invocant. -/
def specialized_on_invocant (g : SpeshGraph) : Bool :=
  g.arg_guards.any (fun slot => slot = 0)

/-- Translation of optimize_getlex_known. `next` is the following
instruction; the Bool result tells the driver that this following sp_log
instruction was deleted. -/
def optimize_getlex_known (env : Env) (g : SpeshGraph) (bbId : Nat) (ins : Ins)
    (next : Option Ins) : SpeshGraph × Ins × Bool :=
  match next with
  | some nins =>
    if nins.info.opcode = Op.sp_log then
      let log_slot := (nins.opnd 1).i16val.toNat * MVM_SPESH_LOG_RUNS
      match g.log_slots.getD log_slot none with
      | some log_obj =>
        let q := MVM_spesh_add_spesh_slot g (some log_obj)
        let g := q.1
        let ss := q.2
        let k1 := (ins.opnd 1).key
        let r := MVM_spesh_get_facts g (ins.opnd 1)
        let g := update_facts r.1 k1 (fun f => { f with usages := f.usages - 1 })
        let ins := { ins with info := op_info_sp_getspeshslot,
                              operands := ins.operands.set 1 (Operand.lit_i16 ss) }
        let s := MVM_spesh_get_facts g (ins.opnd 0)
        let g := s.1
        let k0 := (ins.opnd 0).key
        let g := update_facts g k0 (fun f =>
          { f with flags := { f.flags with known_type := true, known_value := true },
                   type := env.what_of log_obj,
                   value := { f.value with o := log_obj } })
        let g :=
          if env.is_concrete log_obj then
            let g := update_facts g k0 (fun f =>
              { f with flags := { f.flags with concrete := true } })
            if (env.cont_spec log_obj).isNone then
              update_facts g k0 (fun f =>
                { f with flags := { f.flags with deconted := true } })
            else g
          else
            update_facts g k0 (fun f =>
              { f with flags := { f.flags with typeobj := true } })
        (g, ins, true)
      | none => (g, ins, false)
    else (g, ins, false)
  | none => (g, ins, false)

/-! ## Call optimization (try_find_spesh_candidate and optimize_call) -/

/-- One iteration of the guard-testing loop of try_find_spesh_candidate:
whether this guard fails; slots at or past MAX_ARGS_FOR_OPT and slots with no
recorded facts fail, any kind other than the four known ones fails. -/
def guard_fails_one (env : Env) (g : SpeshGraph) (arg_info : MVMSpeshCallInfo)
    (gd : MVMSpeshGuard) : Bool :=
  let factsKey := if gd.slot < MAX_ARGS_FOR_OPT then arg_info.arg_facts gd.slot else none
  match factsKey with
  | none => true
  | some k =>
    let facts := g.facts k.1 k.2
    let want_st := gd.match_st
    if gd.kind = MVM_SPESH_GUARD_CONC then
      !facts.flags.concrete || !facts.flags.known_type ||
      !(env.stable_of facts.type == want_st)
    else if gd.kind = MVM_SPESH_GUARD_TYPE then
      !facts.flags.typeobj || !facts.flags.known_type ||
      !(env.stable_of facts.type == want_st)
    else if gd.kind = MVM_SPESH_GUARD_DC_CONC then
      !facts.flags.decont_concrete || !facts.flags.known_decont_type ||
      !(env.stable_of facts.decont_type == want_st)
    else if gd.kind = MVM_SPESH_GUARD_DC_TYPE then
      !facts.flags.decont_typeobj || !facts.flags.known_decont_type ||
      !(env.stable_of facts.decont_type == want_st)
    else true

/-- The guard-testing loop of try_find_spesh_candidate: true when some guard
fails (scanning stops at the first failure, as the C loop breaks). -/
def guards_fail (env : Env) (g : SpeshGraph) (arg_info : MVMSpeshCallInfo) :
    List MVMSpeshGuard → Bool
  | [] => false
  | gd :: rest =>
    if guard_fails_one env g arg_info gd then true
    else guards_fail env g arg_info rest

/-- Translation of try_find_spesh_candidate: the first candidate whose
callsite is pointer-equal to the tracked one and whose guards all hold;
C's -1 is `none`. -/
def try_find_spesh_candidate (env : Env) (g : SpeshGraph) (code : Obj)
    (arg_info : MVMSpeshCallInfo) : Option Nat :=
  let cands := env.spesh_candidates code
  (List.range cands.length).find? (fun i =>
    match cands.get? i with
    | some cand => (arg_info.cs == some cand.cs) && !guards_fail env g arg_info cand.guards
    | none => false)

/-- The target-resolution chain of optimize_call (lines 470 to 526): resolve
the known callee to a concrete code object, 0 when none is found. The
multi-dispatch unpacking branch reads is->class_handle and is->attr_name
where the surrounding code suggests m_is, exactly as the source does. -/
def resolve_call_target (env : Env) (code : Obj) (arg_info : MVMSpeshCallInfo) : Obj :=
  if env.repr_id code = MVM_REPR_ID_MVMCode then code
  else
    match env.invocation_spec code with
    | none => 0
    | some is =>
      if is.md_class_handle ≠ 0 then
        if env.get_attr_i code is.md_class_handle is.md_valid_attr ≠ 0 then
          let cache := env.get_attr_o code is.md_class_handle is.md_cache_attr
          if cache ≠ 0 then
            match env.multi_cache_find_spesh cache arg_info with
            | some found =>
              if env.repr_id found = MVM_REPR_ID_MVMCode then found
              else
                match env.invocation_spec found with
                | some m_is =>
                  if m_is.class_handle ≠ 0 then
                    let d := env.get_attr_o found is.class_handle is.attr_sel
                    if env.repr_id d = MVM_REPR_ID_MVMCode then d else 0
                  else 0
                | none => 0
            | none => 0
          else 0
        else 0
      else if is.class_handle ≠ 0 then
        let d := env.get_attr_o code is.class_handle is.attr_sel
        if env.repr_id d = MVM_REPR_ID_MVMCode then d else 0
      else 0

/-- Translation of optimize_call. The emitted list replaces the invoke
instruction in the block: a resolved target that differs from the callee
prepends an sp_getspeshslot load; inlining hands the whole graph to the
inliner collaborator; the C throw on an unhandled invoke opcode cannot be
reached from the dispatched opcodes and leaves the instruction in place. -/
def optimize_call (env : Env) (g : SpeshGraph) (bbId : Nat) (ins : Ins)
    (callee_idx : Nat) (arg_info : MVMSpeshCallInfo) : SpeshGraph × List Ins :=
  let p := MVM_spesh_get_facts g (ins.opnd callee_idx)
  let g := p.1
  let callee_facts := p.2
  if callee_facts.flags.known_value then
    let code := callee_facts.value.o
    let target := resolve_call_target env code arg_info
    let gp : SpeshGraph × List Ins :=
      if target ≠ 0 ∧ target ≠ code ∧ env.is_compiler_stub target = false then
        let q := MVM_spesh_add_spesh_slot g (some target)
        let ss_ins : Ins := { id := q.1.next_ins_id, info := op_info_sp_getspeshslot,
                              operands := [ins.opnd callee_idx, Operand.lit_i16 q.2] }
        ({ q.1 with next_ins_id := q.1.next_ins_id + 1 }, [ss_ins])
      else (g, [])
    let g := gp.1
    let pre := gp.2
    if target ≠ 0 then
      match try_find_spesh_candidate env g target arg_info with
      | some spesh_cand =>
        if env.inline_try_get_graph target spesh_cand then
          (env.spesh_inline g arg_info bbId ins, pre)
        else
          if ins.info.opcode = Op.invoke_v then
            (g, pre ++ [{ ins with info := op_info_sp_fastinvoke_v,
                                   operands := [ins.opnd 0, Operand.lit_i16 (spesh_cand : Int)] }])
          else
            let new_operands := [ins.opnd 0, ins.opnd 1, Operand.lit_i16 (spesh_cand : Int)]
            if ins.info.opcode = Op.invoke_i then
              (g, pre ++ [{ ins with info := op_info_sp_fastinvoke_i, operands := new_operands }])
            else if ins.info.opcode = Op.invoke_n then
              (g, pre ++ [{ ins with info := op_info_sp_fastinvoke_n, operands := new_operands }])
            else if ins.info.opcode = Op.invoke_s then
              (g, pre ++ [{ ins with info := op_info_sp_fastinvoke_s, operands := new_operands }])
            else if ins.info.opcode = Op.invoke_o then
              (g, pre ++ [{ ins with info := op_info_sp_fastinvoke_o, operands := new_operands }])
            else
              (g, pre ++ [{ ins with operands := new_operands }])
      | none => (g, pre ++ [ins])
    else (g, pre ++ [ins])
  else (g, [ins])

/-! ## The dominator-order driver (optimize_bb) -/

/-- The outcome of dispatching one instruction: updated graph, argument
tracking record and successor array, the instructions that stand where the
dispatched one stood, and whether the following instruction was deleted. -/
structure StepOut where
  g : SpeshGraph
  ai : MVMSpeshCallInfo
  succ : List Nat
  emit : List Ins
  skipNext : Bool

/-- A dispatch that leaves everything unchanged (the switch default). -/
def StepOut.keep (g : SpeshGraph) (ai : MVMSpeshCallInfo) (succ : List Nat) (ins : Ins) :
    StepOut :=
  ⟨g, ai, succ, [ins], false⟩

/-- One arm of the optimize_bb switch, dispatched on the opcode of `ins`;
`next` is the following instruction in the block. -/
def optimize_ins (env : Env) (g : SpeshGraph) (bbId : Nat) (succ : List Nat)
    (linearNext : Option Nat) (ai : MVMSpeshCallInfo) (ins : Ins) (next : Option Ins) :
    StepOut :=
  let opc := ins.info.opcode
  let wrap2 : SpeshGraph × Ins → StepOut := fun r => ⟨r.1, ai, succ, [r.2], false⟩
  if opc = Op.set then
    ⟨copy_facts g (ins.opnd 0) (ins.opnd 1), ai, succ, [ins], false⟩
  else if opc = Op.if_i ∨ opc = Op.unless_i ∨ opc = Op.if_n ∨ opc = Op.unless_n ∨
          opc = Op.if_o ∨ opc = Op.unless_o then
    let r := optimize_iffy env g succ linearNext ins
    ⟨r.1, ai, r.2.1, (match r.2.2 with | some i => [i] | none => []), false⟩
  else if opc = Op.prepargs then
    ⟨g, { ai with cs := some (g.callsites (ins.opnd 0).csIdx), prepargs_ins := some ins.id },
     succ, [ins], false⟩
  else if opc = Op.arg_i ∨ opc = Op.arg_n ∨ opc = Op.arg_s ∨ opc = Op.arg_o then
    let idx := (ins.opnd 0).i16val
    if 0 ≤ idx ∧ idx < (MAX_ARGS_FOR_OPT : Int) then
      let n := idx.toNat
      let p := MVM_spesh_get_facts g (ins.opnd 1)
      ⟨p.1,
       { ai with arg_is_const := fun j => if j = n then false else ai.arg_is_const j,
                 arg_facts := fun j => if j = n then some (ins.opnd 1).key else ai.arg_facts j,
                 arg_ins := fun j => if j = n then some ins.id else ai.arg_ins j },
       succ, [ins], false⟩
    else StepOut.keep g ai succ ins
  else if opc = Op.argconst_i ∨ opc = Op.argconst_n ∨ opc = Op.argconst_s then
    let idx := (ins.opnd 0).i16val
    if 0 ≤ idx ∧ idx < (MAX_ARGS_FOR_OPT : Int) then
      let n := idx.toNat
      ⟨g,
       { ai with arg_is_const := fun j => if j = n then true else ai.arg_is_const j,
                 arg_ins := fun j => if j = n then some ins.id else ai.arg_ins j },
       succ, [ins], false⟩
    else StepOut.keep g ai succ ins
  else if opc = Op.coerce_in then
    wrap2 (optimize_coerce env g bbId ins)
  else if opc = Op.invoke_v then
    let r := optimize_call env g bbId ins 0 ai
    ⟨r.1, ai, succ, r.2, false⟩
  else if opc = Op.invoke_i ∨ opc = Op.invoke_n ∨ opc = Op.invoke_s ∨ opc = Op.invoke_o then
    let r := optimize_call env g bbId ins 1 ai
    ⟨r.1, ai, succ, r.2, false⟩
  else if opc = Op.islist ∨ opc = Op.ishash ∨ opc = Op.isint ∨ opc = Op.isnum ∨
          opc = Op.isstr then
    wrap2 (optimize_is_reprid env g ins)
  else if opc = Op.findmeth then
    wrap2 (optimize_method_lookup env g ins)
  else if opc = Op.can ∨ opc = Op.can_s then
    StepOut.keep g ai succ ins
  else if opc = Op.create then
    wrap2 (optimize_repr_op env g bbId ins 1)
  else if opc = Op.isconcrete then
    wrap2 (optimize_isconcrete env g ins)
  else if opc = Op.istype then
    wrap2 (optimize_istype env g ins)
  else if opc = Op.bindattr_i ∨ opc = Op.bindattr_n ∨ opc = Op.bindattr_s ∨
          opc = Op.bindattr_o ∨ opc = Op.bindattrs_i ∨ opc = Op.bindattrs_n ∨
          opc = Op.bindattrs_s ∨ opc = Op.bindattrs_o then
    wrap2 (optimize_repr_op env g bbId ins 0)
  else if opc = Op.getattr_i ∨ opc = Op.getattr_n ∨ opc = Op.getattr_s ∨
          opc = Op.getattr_o ∨ opc = Op.getattrs_i ∨ opc = Op.getattrs_n ∨
          opc = Op.getattrs_s ∨ opc = Op.getattrs_o then
    wrap2 (optimize_repr_op env g bbId ins 1)
  else if opc = Op.box_i ∨ opc = Op.box_n ∨ opc = Op.box_s then
    wrap2 (optimize_repr_op env g bbId ins 2)
  else if opc = Op.unbox_i ∨ opc = Op.unbox_n ∨ opc = Op.unbox_s then
    wrap2 (optimize_repr_op env g bbId ins 1)
  else if opc = Op.elems then
    wrap2 (optimize_repr_op env g bbId ins 1)
  else if opc = Op.hllize then
    wrap2 (optimize_hllize env g ins)
  else if opc = Op.decont then
    wrap2 (optimize_decont env g bbId ins)
  else if opc = Op.assertparamcheck then
    let r := optimize_assertparamcheck env g bbId ins
    ⟨r.1, ai, succ, (match r.2 with | some i => [i] | none => []), false⟩
  else if opc = Op.getlexstatic_o then
    let r := optimize_getlex_known env g bbId ins next
    ⟨r.1, ai, succ, [r.2.1], r.2.2⟩
  else if opc = Op.getlexperinvtype_o then
    if specialized_on_invocant g then
      let r := optimize_getlex_known env g bbId ins next
      ⟨r.1, ai, succ, [r.2.1], r.2.2⟩
    else StepOut.keep g ai succ ins
  else if opc = Op.sp_log ∨ opc = Op.sp_osrfinalize then
    ⟨g, ai, succ, [], false⟩
  else StepOut.keep g ai succ ins

/-- The instruction loop of optimize_bb over one block's instruction list. -/
def optimize_block_ins (env : Env) (bbId : Nat) (linearNext : Option Nat) :
    SpeshGraph → MVMSpeshCallInfo → List Nat → List Ins →
    SpeshGraph × MVMSpeshCallInfo × List Nat × List Ins
  | g, ai, succ, [] => (g, ai, succ, [])
  | g, ai, succ, ins :: rest =>
    let r := optimize_ins env g bbId succ linearNext ai ins rest.head?
    if r.skipNext then
      match rest with
      | [] => (r.g, r.ai, r.succ, r.emit)
      | _ :: rest2 =>
        let t := optimize_block_ins env bbId linearNext r.g r.ai r.succ rest2
        (t.1, t.2.1, t.2.2.1, r.emit ++ t.2.2.2)
    else
      let t := optimize_block_ins env bbId linearNext r.g r.ai r.succ rest
      (t.1, t.2.1, t.2.2.1, r.emit ++ t.2.2.2)

/-- Translation of optimize_bb: process the block's instructions, then
recurse over the dominator children. The fuel bounds the recursion depth; any
proper dominator tree has depth at most the number of blocks, with which the
driver is invoked. -/
def optimize_bb (env : Env) : Nat → SpeshGraph → Nat → SpeshGraph
  | 0, g, _ => g
  | fuel + 1, g, bbId =>
    match get_bb g bbId with
    | none => g
    | some bb =>
      let linearNext := chain_next g.chain bbId
      let r := optimize_block_ins env bbId linearNext g MVMSpeshCallInfo.init bb.succ bb.ins
      let g := update_bb r.1 bbId (fun b => { b with ins := r.2.2.2, succ := r.2.2.1 })
      bb.children.foldl (fun g c => optimize_bb env fuel g c) g

/-! ## Dead instruction elimination (eliminate_dead_ins) -/

/-- Operand descriptor at a position (rw mask lookup). -/
def spec_at (info : OpInfo) (i : Nat) : OperandSpec :=
  info.operands.getD i OperandSpec.other_spec

/-- MVM_spesh_get_facts(...)->usages--, the non-usage propagation step. -/
def dec_usages_get (g : SpeshGraph) (o : Operand) : SpeshGraph :=
  let p := MVM_spesh_get_facts g o
  update_facts p.1 o.key (fun f => { f with usages := f.usages - 1 })

/-- The per-instruction body of the eliminate_dead_ins scan: returns the
graph, whether the instruction is kept, and whether a deletion happened. -/
def dead_ins_step (g : SpeshGraph) (ins : Ins) : SpeshGraph × Bool × Bool :=
  if ins.info.opcode = Op.phi then
    let p := MVM_spesh_get_facts g (ins.opnd 0)
    let g := p.1
    if p.2.usages = 0 then
      let g := ((List.range ins.info.num_operands).drop 1).foldl
        (fun g i => dec_usages_get g (ins.opnd i)) g
      (g, false, true)
    else (g, true, false)
  else if ins.info.pure then
    if spec_at ins.info 0 = OperandSpec.write_reg then
      let p := MVM_spesh_get_facts g (ins.opnd 0)
      let g := p.1
      if p.2.usages = 0 then
        let g := ((List.range ins.info.num_operands).drop 1).foldl
          (fun g i =>
            if spec_at ins.info i = OperandSpec.read_reg then dec_usages_get g (ins.opnd i)
            else g) g
        (g, false, true)
      else (g, true, false)
    else (g, true, false)
  else (g, true, false)

/-- Backward scan of one block: the input list is the block's instructions
reversed (last first), the output is the kept instructions, still reversed. -/
def sweep_rev (g : SpeshGraph) : List Ins → SpeshGraph × List Ins × Bool
  | [] => (g, [], false)
  | ins :: rest =>
    let r := dead_ins_step g ins
    let t := sweep_rev r.1 rest
    (t.1, (if r.2.1 then [ins] else []) ++ t.2.1, r.2.2 || t.2.2)

/-- One pass over all blocks in linear order. -/
def sweep_blocks (g : SpeshGraph) : List Nat → SpeshGraph × Bool
  | [] => (g, false)
  | bbId :: rest =>
    match get_bb g bbId with
    | none => sweep_blocks g rest
    | some bb =>
      let r := sweep_rev g bb.ins.reverse
      let g2 := update_bb r.1 bbId (fun b => { b with ins := r.2.1.reverse })
      let t := sweep_blocks g2 rest
      (t.1, r.2.2 || t.2)

/-- One iteration of the eliminate_dead_ins while loop. -/
def dead_ins_sweep (g : SpeshGraph) : SpeshGraph × Bool :=
  sweep_blocks g g.chain

/-- Number of instructions on the linear chain, the measure the fixed-point
iteration strictly decreases. -/
def ins_count (g : SpeshGraph) : Nat :=
  (g.chain.map (fun bbId => ((get_bb g bbId).map (fun b => b.ins.length)).getD 0)).sum

/-- The deadness test of the eliminate_dead_ins scan, as a Boolean: a PHI, or
a pure instruction whose first operand descriptor is a register write, whose
written register has no usages left. -/
def dead_check (g : SpeshGraph) (ins : Ins) : Bool :=
  if ins.info.opcode = Op.phi then
    decide ((get_facts_direct g (ins.opnd 0)).usages = 0)
  else if ins.info.pure then
    if spec_at ins.info 0 = OperandSpec.write_reg then
      decide ((get_facts_direct g (ins.opnd 0)).usages = 0)
    else false
  else false

/-- Number of instructions held by the block with the given id. -/
def len_of (g : SpeshGraph) (id : Nat) : Nat :=
  ((get_bb g id).map (fun b => b.ins.length)).getD 0

def eliminate_dead_ins_loop : Nat → SpeshGraph → SpeshGraph
  | 0, g => g
  | n + 1, g =>
    let r := dead_ins_sweep g
    if r.2 then eliminate_dead_ins_loop n r.1 else r.1

/-- Translation of eliminate_dead_ins: iterate sweeps to a fixed point. Each
continuing sweep deletes at least one instruction, so ins_count g + 1 rounds
always reach the fixed point. -/
def eliminate_dead_ins (g : SpeshGraph) : SpeshGraph :=
  eliminate_dead_ins_loop (ins_count g + 1) g

/-! ## Unreachable block elimination (eliminate_dead_bbs) -/

/-- One step of the marking pass: record the idx of every successor of one
chain block in the seen array. -/
def mark_block_succ (g : SpeshGraph) (seen : Nat → Bool) (bbId : Nat) : Nat → Bool :=
  match get_bb g bbId with
  | some bb =>
    bb.succ.foldl
      (fun seen sId =>
        match get_bb g sId with
        | some sbb => fun i => if i = sbb.idx then true else seen i
        | none => seen)
      seen
  | none => seen

/-- The marking pass: memset of the first num_bbs bytes of the seen array
(later iterations of the C loop reset only that prefix, the rest keeps its
previous contents, which this threading reproduces), entry mark, then a mark
for every successor of every block on the chain. -/
def dbb_mark (g : SpeshGraph) (seen0 : Nat → Bool) : Nat → Bool :=
  let seen1 := fun i => if i < g.num_bbs then false else seen0 i
  let seen2 := fun i => if i = 0 then true else seen1 i
  g.chain.foldl (fun seen bbId => mark_block_succ g seen bbId) seen2

/-- Whether the removal pass keeps a chain block: it survives when its block
record cannot be found, when its idx is marked seen, or when it is inlined
(the negation of the removable test in dbb_sweep). -/
def dbb_keep (g : SpeshGraph) (seen : Nat → Bool) (x : Nat) : Prop :=
  match get_bb g x with
  | none => True
  | some bb => seen bb.idx = true ∨ bb.inlined = true

/-- The removable test of the removal pass: the linear_next block is dropped
when it is neither seen nor inlined. -/
def dbb_removable (g : SpeshGraph) (seen : Nat → Bool) (b : Nat) : Bool :=
  match get_bb g b with
  | some bb => !seen bb.idx && !bb.inlined
  | none => false

/-- The removal pass: walk the chain from the entry, dropping every
linear_next block that is neither seen nor inlined; after a removal the walk
continues at the block after the removed one, as the C pointer walk does.
Returns the new chain, the death flag, and the removal count. -/
def dbb_sweep (g : SpeshGraph) (seen : Nat → Bool) : Nat → List Nat → List Nat × Bool × Nat
  | hd, [] => ([hd], false, 0)
  | hd, b :: rest =>
    if dbb_removable g seen b then
      match rest with
      | [] => ([hd], true, 1)
      | c :: rest2 =>
        let t := dbb_sweep g seen c rest2
        (hd :: t.1, true, t.2.2 + 1)
    else
      let t := dbb_sweep g seen b rest
      (hd :: t.1, t.2.1, t.2.2)

/-- One iteration of the eliminate_dead_bbs while loop. -/
def dbb_iter (g : SpeshGraph) (seen0 : Nat → Bool) : SpeshGraph × (Nat → Bool) × Bool :=
  let seen := dbb_mark g seen0
  match g.chain with
  | [] => (g, seen, false)
  | hd :: rest =>
    let t := dbb_sweep g seen hd rest
    ({ g with chain := t.1, num_bbs := g.num_bbs - t.2.2 }, seen, t.2.1)

def dbb_loop : Nat → SpeshGraph → (Nat → Bool) → SpeshGraph
  | 0, g, _ => g
  | n + 1, g, seen =>
    let t := dbb_iter g seen
    if t.2.2 then dbb_loop n t.1 t.2.1 else t.1

/-- The final renumbering: contiguous idx values along the chain. -/
def renumber_bbs (g : SpeshGraph) : SpeshGraph :=
  (g.chain.foldl
    (fun (p : SpeshGraph × Nat) bbId =>
      (update_bb p.1 bbId (fun b => { b with idx := p.2 }), p.2 + 1))
    (g, 0)).1

/-- Translation of eliminate_dead_bbs. `seen0` is the content of the freshly
malloc'd seen array (unspecified in C, hence a parameter); each continuing
iteration removes at least one chain block, so chain length + 1 rounds reach
the fixed point. -/
def eliminate_dead_bbs (g : SpeshGraph) (seen0 : Nat → Bool) : SpeshGraph :=
  let orig_bbs := g.num_bbs
  let g' := dbb_loop (g.chain.length + 1) g seen0
  if g'.num_bbs ≠ orig_bbs then renumber_bbs g' else g'

/-! ## Unused log guard elimination and the top-level driver -/

/-- MVM_spesh_manipulate_delete_ins, modelled from the spec (manipulate.c is
not among the provided sources): unlink the instruction from its block's
list. -/
def delete_ins_by_id (g : SpeshGraph) (bbId insId : Nat) : SpeshGraph :=
  update_bb g bbId (fun b => { b with ins := b.ins.filter (fun i => i.id ≠ insId) })

/-- Translation of eliminate_unused_log_guards. -/
def eliminate_unused_log_guards (g : SpeshGraph) : SpeshGraph :=
  g.log_guards.foldl
    (fun g lg => if !lg.used then delete_ins_by_id g lg.bb lg.ins else g) g

/-- Translation of MVM_spesh_optimize: the dominator walk, then the three
cleanup passes. -/
def MVM_spesh_optimize (env : Env) (seen0 : Nat → Bool) (g : SpeshGraph) : SpeshGraph :=
  let g := optimize_bb env (g.blocks.length + 1) g (g.chain.headD 0)
  let g := eliminate_dead_ins g
  let g := eliminate_dead_bbs g seen0
  eliminate_unused_log_guards g

/-! ## Observation helpers used by the claim statements -/

/-- Whether an operand is the register with the given key. -/
def Operand.isRegOf (o : Operand) (k : Nat × Nat) : Bool :=
  match o with
  | .reg a b => (a, b) == k
  | _ => false

/-- Number of read references an instruction makes to a register: for a PHI
every operand past the first, otherwise every operand position whose
descriptor is a register read. -/
def ins_reads_of (ins : Ins) (k : Nat × Nat) : Nat :=
  if ins.info.opcode = Op.phi then
    ((List.range ins.info.num_operands).drop 1).countP (fun i => (ins.opnd i).isRegOf k)
  else
    (List.range ins.info.num_operands).countP (fun i =>
      decide (spec_at ins.info i = OperandSpec.read_reg) && (ins.opnd i).isRegOf k)

/-- Number of read references to a register over the whole linear chain. -/
def count_reads (g : SpeshGraph) (k : Nat × Nat) : Nat :=
  (g.chain.map (fun bbId =>
    ((get_bb g bbId).map (fun b => (b.ins.map (fun i => ins_reads_of i k)).sum)).getD 0)).sum

/-- Number of instructions with a given opcode over the whole linear chain. -/
def count_opcode (g : SpeshGraph) (opc : Op) : Nat :=
  (g.chain.map (fun bbId =>
    ((get_bb g bbId).map (fun b => b.ins.countP (fun i => i.info.opcode == opc))).getD 0)).sum

/-! ## Concrete graphs and environments for the claims -/

/-- An environment where every collaborator answers negatively: no caches
hit, no hooks exist, nothing resolves. -/
def env_default : Env :=
  { repr_id := fun _ => 99
    stable_of := fun x => x
    what_of := fun _ => 0
    is_concrete := fun _ => false
    cont_spec := fun _ => none
    find_method_cache_only := fun _ _ => none
    can_method_cache_only := fun _ _ => -1
    try_cache_type_check := fun _ _ => none
    bool_spec := fun _ => none
    coerce_istrue := fun _ => 0
    hll_owner_of := fun _ => 0
    repr_spesh := fun _ => none
    invocation_spec := fun _ => none
    get_attr_i := fun _ _ _ => 0
    get_attr_o := fun _ _ _ => 0
    multi_cache_find_spesh := fun _ _ => none
    is_compiler_stub := fun _ => false
    spesh_candidates := fun _ => []
    inline_try_get_graph := fun _ _ => false
    spesh_inline := fun g _ _ _ => g }

/-- A graph with no blocks, used as the base of the concrete graphs. -/
def graph0 : SpeshGraph :=
  { blocks := [], chain := [], num_bbs := 0, facts := fun _ _ => SpeshFacts.empty,
    spesh_slots := [], log_guards := [], log_slots := [], strings := fun _ => 0,
    callsites := fun _ => 0, hll_config := 0, arg_guards := [], next_ins_id := 100 }

/-- The all-false content of a freshly allocated seen array. -/
def seen_false : Nat → Bool := fun _ => false

/-- C1 graph: a pure producer of r2, an islist reading r2 whose known type
has a non-array representation, and an impure consumer keeping r1 alive.
Usage counts match the read counts exactly. -/
def c1_insA : Ins := ⟨1, ⟨Op.other 0, true, 1, [.write_reg]⟩, [.reg 2 0]⟩
def c1_insB : Ins := ⟨2, ⟨Op.islist, true, 2, [.write_reg, .read_reg]⟩, [.reg 1 0, .reg 2 0]⟩
def c1_insC : Ins := ⟨3, ⟨Op.other 1, false, 1, [.read_reg]⟩, [.reg 1 0]⟩

def c1_graph : SpeshGraph :=
  { graph0 with
    blocks := [⟨0, 0, [c1_insA, c1_insB, c1_insC], [], [], false⟩]
    chain := [0]
    num_bbs := 1
    facts := fun o i =>
      if o = 2 ∧ i = 0 then
        { SpeshFacts.empty with
          flags := { SpeshFactFlags.empty with known_type := true }, type := 42, usages := 1 }
      else if o = 1 ∧ i = 0 then { SpeshFacts.empty with usages := 1 }
      else SpeshFacts.empty }

/-- C2 graph: a single invoke_v of a callee known to be an invokable
non-code object whose single-dispatch attribute resolves to a code object
with no spesh candidates. -/
def c2_invoke : Ins := ⟨10, ⟨Op.invoke_v, false, 1, [.read_reg]⟩, [.reg 1 0]⟩

def c2_graph : SpeshGraph :=
  { graph0 with
    blocks := [⟨0, 0, [c2_invoke], [], [], false⟩]
    chain := [0]
    num_bbs := 1
    facts := fun o i =>
      if o = 1 ∧ i = 0 then
        { SpeshFacts.empty with
          flags := { SpeshFactFlags.empty with known_value := true },
          value := { SpeshValue.empty with o := 5 }, usages := 1 }
      else SpeshFacts.empty }

def c2_env : Env :=
  { env_default with
    repr_id := fun o => if o = 7 then MVM_REPR_ID_MVMCode else 99
    invocation_spec := fun o => if o = 5 then some ⟨0, 0, 0, 3, 0⟩ else none
    get_attr_o := fun _ _ _ => 7 }

/-- C3 graph: an if_i on a register with known value 0; block 1 is the
fall-through, block 2 the labeled target. -/
def c3_if : Ins := ⟨20, ⟨Op.if_i, false, 2, [.read_reg, .other_spec]⟩, [.reg 1 0, .ins_bb 2]⟩

def c3_graph : SpeshGraph :=
  { graph0 with
    blocks := [⟨0, 0, [c3_if], [1, 2], [1, 2], false⟩, ⟨1, 1, [], [], [], false⟩,
               ⟨2, 2, [], [], [], false⟩]
    chain := [0, 1, 2]
    num_bbs := 3
    facts := fun o i =>
      if o = 1 ∧ i = 0 then
        { SpeshFacts.empty with
          flags := { SpeshFactFlags.empty with known_value := true }, usages := 1 }
      else SpeshFacts.empty }

/-- C3 graph variant: the same block shape with unless_i instead. -/
def c3u_unless : Ins := ⟨20, ⟨Op.unless_i, false, 2, [.read_reg, .other_spec]⟩, [.reg 1 0, .ins_bb 2]⟩

def c3u_graph : SpeshGraph :=
  { c3_graph with
    blocks := [⟨0, 0, [c3u_unless], [1, 2], [1, 2], false⟩, ⟨1, 1, [], [], [], false⟩,
               ⟨2, 2, [], [], [], false⟩] }

/-- C6 graph: the cascade r1 := pure(); r2 := pure(r1); r3 := pure(r2) with
r3 unused and all three pure. -/
def c6_ins1 : Ins := ⟨1, ⟨Op.other 0, true, 1, [.write_reg]⟩, [.reg 1 0]⟩
def c6_ins2 : Ins := ⟨2, ⟨Op.other 0, true, 2, [.write_reg, .read_reg]⟩, [.reg 2 0, .reg 1 0]⟩
def c6_ins3 : Ins := ⟨3, ⟨Op.other 0, true, 2, [.write_reg, .read_reg]⟩, [.reg 3 0, .reg 2 0]⟩

def c6_graph : SpeshGraph :=
  { graph0 with
    blocks := [⟨0, 0, [c6_ins1, c6_ins2, c6_ins3], [], [], false⟩]
    chain := [0]
    num_bbs := 1
    facts := fun o i =>
      if o = 1 ∧ i = 0 then { SpeshFacts.empty with usages := 1 }
      else if o = 2 ∧ i = 0 then { SpeshFacts.empty with usages := 1 }
      else SpeshFacts.empty }

/-- C9 graph: an isconcrete whose rewrite enriches the facts of r1, followed
by a can instruction reading r1. -/
def c9_isconc : Ins := ⟨30, ⟨Op.isconcrete, true, 2, [.write_reg, .read_reg]⟩, [.reg 1 0, .reg 2 0]⟩
def c9_can : Ins := ⟨31, ⟨Op.can, false, 3, [.write_reg, .read_reg, .literal]⟩,
  [.reg 3 0, .reg 1 0, .lit_str_idx 0]⟩

def c9_graph : SpeshGraph :=
  { graph0 with
    blocks := [⟨0, 0, [c9_isconc, c9_can], [], [], false⟩]
    chain := [0]
    num_bbs := 1
    facts := fun o i =>
      if o = 2 ∧ i = 0 then
        { SpeshFacts.empty with
          flags := { SpeshFactFlags.empty with concrete := true }, usages := 1 }
      else if o = 1 ∧ i = 0 then { SpeshFacts.empty with usages := 1 }
      else SpeshFacts.empty }

/-- Three-object callsites from the spec's interning scenario: two with equal
content and distinct identities, a third differing in the middle flag byte. -/
def cs_obj3_a : MVMCallsite := ⟨1, [8, 8, 8], 3, 3, false, none, false⟩
def cs_obj3_b : MVMCallsite := ⟨2, [8, 8, 8], 3, 3, false, none, false⟩
def cs_obj3_c : MVMCallsite := ⟨3, [8, 9, 8], 3, 3, false, none, false⟩

/-- The intern-table invariant of claim C8: no bucket holds two callsites
that callsites_equal identifies (comparing with the later entry's flag and
named counts, as the scan at its insertion did), and every entry sits in the
bucket of its own arity. -/
def interns_ok (it : MVMCallsiteInterns) : Prop :=
  ∀ k : Nat,
    ((it.by_arity k).Pairwise
      (fun a b => callsites_equal a b (cs_num_flags b) (cs_num_nameds b) = false)) ∧
    (∀ e ∈ it.by_arity k, cs_num_flags e = k)

/-- C4 objects: a candidate for callsite 9 with one concreteness guard on
slot 0 expecting stable 77, an argument record pointing slot 0 at register
(1, 0), and facts making the guard pass. -/
def c4_cand : MVMSpeshCandidate := ⟨9, [⟨MVM_SPESH_GUARD_CONC, 0, 77⟩]⟩

def c4_env : Env :=
  { env_default with
    spesh_candidates := fun _ => [c4_cand]
    stable_of := fun t => if t = 55 then 77 else 0 }

def c4_ai : MVMSpeshCallInfo :=
  { MVMSpeshCallInfo.init with
    cs := some 9
    arg_facts := fun j => if j = 0 then some (1, 0) else none }

def c4_graph : SpeshGraph :=
  { graph0 with
    facts := fun o i =>
      if o = 1 ∧ i = 0 then
        { SpeshFacts.empty with
          flags := { SpeshFactFlags.empty with concrete := true, known_type := true },
          type := 55 }
      else SpeshFacts.empty }

/-- C5 objects: a findmeth whose receiver (2, 0) has known type 9, with the
method cache answering object 33 for string 0. -/
def c5_ins : Ins := ⟨40, ⟨Op.findmeth, false, 3, [.write_reg, .read_reg, .literal]⟩,
  [.reg 1 0, .reg 2 0, .lit_str_idx 0]⟩

def c5_env : Env :=
  { env_default with
    find_method_cache_only := fun t n => if t = 9 ∧ n = 0 then some 33 else none }

def c5_graph : SpeshGraph :=
  { graph0 with
    facts := fun o i =>
      if o = 2 ∧ i = 0 then
        { SpeshFacts.empty with
          flags := { SpeshFactFlags.empty with known_type := true }, type := 9, usages := 1 }
      else SpeshFacts.empty }

/-- The instruction ids of a block. -/
def ins_ids (b : SpeshBB) : List Nat := b.ins.map (fun i => i.id)

/-- C10 objects: a block holding the two log-guard instructions 7 and 8,
guard 0 (instruction 7) unused, guard 1 (instruction 8) used, and facts on
(1, 0) that came from log guard 0. -/
def c10_ins7 : Ins := ⟨7, ⟨Op.other 5, false, 1, [.read_reg]⟩, [.reg 1 0]⟩
def c10_ins8 : Ins := ⟨8, ⟨Op.other 5, false, 1, [.read_reg]⟩, [.reg 2 0]⟩

def c10_graph : SpeshGraph :=
  { graph0 with
    blocks := [⟨0, 0, [c10_ins7, c10_ins8], [], [], false⟩]
    chain := [0]
    num_bbs := 1
    log_guards := [⟨7, 0, false⟩, ⟨8, 0, true⟩]
    facts := fun o i =>
      if o = 1 ∧ i = 0 then
        { SpeshFacts.empty with
          flags := { SpeshFactFlags.empty with from_log_guard := true }, log_guard := 0 }
      else SpeshFacts.empty }

/-! # Theorems -/

/-! ## C8: the intern table never holds two equal callsites -/

theorem callsites_equal_mark (a cs : MVMCallsite) (nf nn : Nat) :
    callsites_equal a { cs with is_interned := true } nf nn = callsites_equal a cs nf nn := rfl

theorem interns_ok_empty : interns_ok empty_interns := by
  intro k
  exact ⟨List.Pairwise.nil, fun e he => absurd he (List.not_mem_nil e)⟩

theorem interns_ok_append (it : MVMCallsiteInterns) (cs' : MVMCallsite) (nf : Nat)
    (h : interns_ok it) (hflags : cs_num_flags cs' = nf)
    (hnew : ∀ a ∈ it.by_arity nf,
      callsites_equal a cs' (cs_num_flags cs') (cs_num_nameds cs') = false) :
    interns_ok ⟨fun k => if k = nf then it.by_arity nf ++ [cs'] else it.by_arity k⟩ := by
  intro k
  show (if k = nf then it.by_arity nf ++ [cs'] else it.by_arity k).Pairwise _ ∧
    ∀ e ∈ (if k = nf then it.by_arity nf ++ [cs'] else it.by_arity k), cs_num_flags e = k
  by_cases hk : k = nf
  · rw [if_pos hk]
    constructor
    · refine List.pairwise_append.mpr ⟨(h nf).1, List.pairwise_singleton _ _, ?_⟩
      intro a ha b hb
      rw [List.mem_singleton] at hb
      subst hb
      exact hnew a ha
    · intro e he
      rcases List.mem_append.mp he with h1 | h1
      · rw [hk]
        exact (h nf).2 e h1
      · rw [List.mem_singleton] at h1
        subst h1
        rw [hflags]
        exact hk.symm
  · rw [if_neg hk]
    exact h k

theorem try_intern_preserves (it : MVMCallsiteInterns) (cs : MVMCallsite)
    (h : interns_ok it) : interns_ok (MVM_callsite_try_intern it cs).1 := by
  simp only [MVM_callsite_try_intern]
  split
  · exact h
  split
  · exact h
  split
  · exact h
  split
  · exact h
  next hn =>
    have hnone := List.find?_eq_none.mp hn
    exact interns_ok_append it { cs with is_interned := true }
      (cs.num_pos + (cs.arg_count - cs.num_pos) / 2) h rfl
      (fun a ha => Bool.eq_false_iff.mpr (hnone a ha))

theorem interns_ok_fold : ∀ (css : List MVMCallsite) (it : MVMCallsiteInterns),
    interns_ok it →
    interns_ok (css.foldl (fun it cs => (MVM_callsite_try_intern it cs).1) it)
  | [], _, h => h
  | cs :: rest, it, h => interns_ok_fold rest _ (try_intern_preserves it cs h)

/-- C8: after any sequence of MVM_callsite_try_intern calls, try_intern never
stores a callsite equal (per callsites_equal, with the later entry's flag and
named counts) to one already in its arity bucket, so any two distinct
callsites in the table differ in arity (bucket), in a flag byte, or in a
name; every entry moreover sits in the bucket of its own arity. -/
theorem C8_interned_callsites_distinct (css : List MVMCallsite) :
    interns_ok (intern_all css) :=
  interns_ok_fold css empty_interns interns_ok_empty

theorem C8_interned_callsites_distinct_witness :
    interns_ok (intern_all [cs_obj3_a, cs_obj3_b, cs_obj3_c]) :=
  C8_interned_callsites_distinct [cs_obj3_a, cs_obj3_b, cs_obj3_c]

/-! ## C4: try_find_spesh_candidate soundness -/

theorem guards_fail_of_mem (env : Env) (g : SpeshGraph) (ai : MVMSpeshCallInfo) :
    ∀ (gs : List MVMSpeshGuard) (gd : MVMSpeshGuard), gd ∈ gs →
      guard_fails_one env g ai gd = true → guards_fail env g ai gs = true := by
  intro gs
  induction gs with
  | nil => intro gd h; exact absurd h (List.not_mem_nil gd)
  | cons hd t ih =>
    intro gd hm hfail
    rcases List.mem_cons.mp hm with he | ht
    · subst he
      simp only [guards_fail, hfail, if_pos]
    · simp only [guards_fail]
      by_cases hh : guard_fails_one env g ai hd
      · rw [if_pos hh]
      · rw [if_neg hh]
        exact ih gd ht hfail

theorem guard_fails_one_missing (env : Env) (g : SpeshGraph) (ai : MVMSpeshCallInfo)
    (gd : MVMSpeshGuard)
    (h : (if gd.slot < MAX_ARGS_FOR_OPT then ai.arg_facts gd.slot else none) = none) :
    guard_fails_one env g ai gd = true := by
  simp only [guard_fails_one, h]

theorem guard_fails_one_unknown_kind (env : Env) (g : SpeshGraph) (ai : MVMSpeshCallInfo)
    (gd : MVMSpeshGuard)
    (h1 : gd.kind ≠ MVM_SPESH_GUARD_CONC) (h2 : gd.kind ≠ MVM_SPESH_GUARD_TYPE)
    (h3 : gd.kind ≠ MVM_SPESH_GUARD_DC_CONC) (h4 : gd.kind ≠ MVM_SPESH_GUARD_DC_TYPE) :
    guard_fails_one env g ai gd = true := by
  simp only [guard_fails_one]
  cases hfk : (if gd.slot < MAX_ARGS_FOR_OPT then ai.arg_facts gd.slot else none) with
  | none => rfl
  | some k => simp only [h1, h2, h3, h4, if_neg, if_false]

theorem try_find_some_sound (env : Env) (g : SpeshGraph) (code : Obj)
    (ai : MVMSpeshCallInfo) (i : Nat)
    (h : try_find_spesh_candidate env g code ai = some i) :
    ∃ cand, (env.spesh_candidates code).get? i = some cand ∧
      ai.cs = some cand.cs ∧ guards_fail env g ai cand.guards = false := by
  have hp := List.find?_some h
  cases hg : (env.spesh_candidates code).get? i with
  | none => rw [hg] at hp; exact absurd hp (by simp)
  | some cand =>
    rw [hg] at hp
    simp only [Bool.and_eq_true, beq_iff_eq, Bool.not_eq_true'] at hp
    exact ⟨cand, rfl, hp.1, hp.2⟩

/-- C4: try_find_spesh_candidate answers a candidate index only when that
candidate's callsite is pointer-equal to the tracked one and no guard fails;
a candidate with a guard whose slot has no recorded facts is never answered,
nor is one with a guard of a kind other than CONC, TYPE, DC_CONC, DC_TYPE. -/
theorem C4_try_find_spesh_candidate_sound :
    (∀ (env : Env) (g : SpeshGraph) (code : Obj) (ai : MVMSpeshCallInfo) (i : Nat),
      try_find_spesh_candidate env g code ai = some i →
      ∃ cand, (env.spesh_candidates code).get? i = some cand ∧
        ai.cs = some cand.cs ∧ guards_fail env g ai cand.guards = false) ∧
    (∀ (env : Env) (g : SpeshGraph) (code : Obj) (ai : MVMSpeshCallInfo) (i : Nat)
      (cand : MVMSpeshCandidate) (gd : MVMSpeshGuard),
      (env.spesh_candidates code).get? i = some cand → gd ∈ cand.guards →
      (if gd.slot < MAX_ARGS_FOR_OPT then ai.arg_facts gd.slot else none) = none →
      try_find_spesh_candidate env g code ai ≠ some i) ∧
    (∀ (env : Env) (g : SpeshGraph) (code : Obj) (ai : MVMSpeshCallInfo) (i : Nat)
      (cand : MVMSpeshCandidate) (gd : MVMSpeshGuard),
      (env.spesh_candidates code).get? i = some cand → gd ∈ cand.guards →
      gd.kind ≠ MVM_SPESH_GUARD_CONC → gd.kind ≠ MVM_SPESH_GUARD_TYPE →
      gd.kind ≠ MVM_SPESH_GUARD_DC_CONC → gd.kind ≠ MVM_SPESH_GUARD_DC_TYPE →
      try_find_spesh_candidate env g code ai ≠ some i) := by
  refine ⟨try_find_some_sound, ?_, ?_⟩
  · intro env g code ai i cand gd hg hm hmiss hfind
    rcases try_find_some_sound env g code ai i hfind with ⟨cand', hg', _, hok⟩
    rw [hg] at hg'
    cases hg'
    rw [guards_fail_of_mem env g ai cand.guards gd hm
      (guard_fails_one_missing env g ai gd hmiss)] at hok
    exact Bool.true_eq_false ▸ hok
  · intro env g code ai i cand gd hg hm h1 h2 h3 h4 hfind
    rcases try_find_some_sound env g code ai i hfind with ⟨cand', hg', _, hok⟩
    rw [hg] at hg'
    cases hg'
    rw [guards_fail_of_mem env g ai cand.guards gd hm
      (guard_fails_one_unknown_kind env g ai gd h1 h2 h3 h4)] at hok
    exact Bool.true_eq_false ▸ hok

theorem C4_try_find_spesh_candidate_sound_witness :
    ∃ cand, ((c4_env.spesh_candidates 0).get? 0 = some cand) ∧
      c4_ai.cs = some cand.cs ∧ guards_fail c4_env c4_graph c4_ai cand.guards = false :=
  C4_try_find_spesh_candidate_sound.1 c4_env c4_graph 0 c4_ai 0 (by decide)

/-! ## Component lemmas about the state helpers -/

theorem get_facts_snd (g : SpeshGraph) (o : Operand) :
    (MVM_spesh_get_facts g o).2 = get_facts_direct g o := by
  simp only [MVM_spesh_get_facts]
  split <;> rfl

theorem get_facts_fst_facts (g : SpeshGraph) (o : Operand) :
    (MVM_spesh_get_facts g o).1.facts = g.facts := by
  simp only [MVM_spesh_get_facts, set_log_guard_used]
  split <;> rfl

theorem get_facts_fst_slots (g : SpeshGraph) (o : Operand) :
    (MVM_spesh_get_facts g o).1.spesh_slots = g.spesh_slots := by
  simp only [MVM_spesh_get_facts, set_log_guard_used]
  split <;> rfl

theorem get_facts_fst_strings (g : SpeshGraph) (o : Operand) :
    (MVM_spesh_get_facts g o).1.strings = g.strings := by
  simp only [MVM_spesh_get_facts, set_log_guard_used]
  split <;> rfl

theorem get_facts_fst_blocks (g : SpeshGraph) (o : Operand) :
    (MVM_spesh_get_facts g o).1.blocks = g.blocks := by
  simp only [MVM_spesh_get_facts, set_log_guard_used]
  split <;> rfl

theorem get_facts_fst_chain (g : SpeshGraph) (o : Operand) :
    (MVM_spesh_get_facts g o).1.chain = g.chain := by
  simp only [MVM_spesh_get_facts, set_log_guard_used]
  split <;> rfl

theorem update_facts_at (g : SpeshGraph) (k : Nat × Nat) (f : SpeshFacts → SpeshFacts) :
    (update_facts g k f).facts k.1 k.2 = f (g.facts k.1 k.2) := by
  simp [update_facts]

theorem update_facts_read (g : SpeshGraph) (k : Nat × Nat) (f : SpeshFacts → SpeshFacts)
    (a b : Nat) :
    (update_facts g k f).facts a b =
      (if a = k.1 ∧ b = k.2 then f (g.facts a b) else g.facts a b) := rfl

theorem update_facts_slots (g : SpeshGraph) (k : Nat × Nat) (f : SpeshFacts → SpeshFacts) :
    (update_facts g k f).spesh_slots = g.spesh_slots := rfl

theorem update_facts_blocks (g : SpeshGraph) (k : Nat × Nat) (f : SpeshFacts → SpeshFacts) :
    (update_facts g k f).blocks = g.blocks := rfl

theorem update_facts_chain (g : SpeshGraph) (k : Nat × Nat) (f : SpeshFacts → SpeshFacts) :
    (update_facts g k f).chain = g.chain := rfl

/-! ## C5: findmeth rewriting -/

/-- C5: for a findmeth instruction on receiver (o_o, o_i) with destination
(d_o, d_i) and method-name string sidx: when the receiver type is known and
the method cache answers, the instruction becomes an sp_getspeshslot of a new
slot holding the method, the destination gains the known method value, and
the receiver's usage count drops by one; otherwise the instruction becomes
sp_findmeth whose fourth operand is the index of the first of two freshly
appended empty spesh slots, and no usage count changes. -/
theorem C5_optimize_method_lookup (env : Env) (g : SpeshGraph) (ins : Ins)
    (d_o d_i o_o o_i sidx : Nat)
    (hopc : ins.info.opcode = Op.findmeth)
    (hops : ins.operands = [Operand.reg d_o d_i, Operand.reg o_o o_i, Operand.lit_str_idx sidx]) :
    (∀ meth : Obj, (g.facts o_o o_i).flags.known_type = true →
      env.find_method_cache_only (g.facts o_o o_i).type (g.strings sidx) = some meth →
      (optimize_method_lookup env g ins).2.info = op_info_sp_getspeshslot ∧
      (optimize_method_lookup env g ins).2.operands =
        [Operand.reg d_o d_i, Operand.lit_i16 (g.spesh_slots.length : Int),
         Operand.lit_str_idx sidx] ∧
      (optimize_method_lookup env g ins).1.spesh_slots = g.spesh_slots ++ [some meth] ∧
      ((optimize_method_lookup env g ins).1.facts d_o d_i).flags.known_value = true ∧
      ((optimize_method_lookup env g ins).1.facts d_o d_i).value.o = meth ∧
      ((optimize_method_lookup env g ins).1.facts o_o o_i).usages =
        (g.facts o_o o_i).usages - 1) ∧
    ((g.facts o_o o_i).flags.known_type = false ∨
      env.find_method_cache_only (g.facts o_o o_i).type (g.strings sidx) = none →
      (optimize_method_lookup env g ins).2.info = op_info_sp_findmeth ∧
      (optimize_method_lookup env g ins).2.operands =
        [Operand.reg d_o d_i, Operand.reg o_o o_i, Operand.lit_str_idx sidx,
         Operand.lit_i16 (g.spesh_slots.length : Int)] ∧
      (optimize_method_lookup env g ins).1.spesh_slots = g.spesh_slots ++ [none, none] ∧
      ∀ a b, ((optimize_method_lookup env g ins).1.facts a b).usages =
        (g.facts a b).usages) := by
  constructor
  · intro meth hkt hcache
    simp only [optimize_method_lookup, Ins.opnd, hops, List.getD, List.get?, Option.getD,
      get_facts_snd, get_facts_fst_facts, get_facts_fst_slots, get_facts_fst_strings,
      MVM_spesh_get_string, MVM_spesh_add_spesh_slot, get_facts_direct, Operand.key,
      Operand.strIdx, hkt, hcache, update_facts_slots, update_facts_read, if_true,
      get_facts_fst_blocks, get_facts_fst_chain]
    refine ⟨?_, ?_, ?_, ?_, ?_, ?_⟩ <;>
      first
      | trivial
      | (by_cases halias : d_o = o_o ∧ d_i = o_i <;> simp [halias] <;> try (split <;> rfl)
         done)
      | (by_cases halias : o_o = d_o ∧ o_i = d_i <;> simp [halias] <;> try (split <;> rfl)
         done)
  · intro hmiss
    have hred : optimize_method_lookup env g ins =
        sp_findmeth_rewrite (MVM_spesh_get_facts g (ins.opnd 1)).1 ins := by
      simp only [optimize_method_lookup]
      rcases hmiss with hm | hm
      · rw [get_facts_snd]
        simp only [Ins.opnd, hops, List.getD, List.get?, Option.getD, get_facts_direct,
          Operand.key] at hm ⊢
        rw [hm]
        simp
      · rw [get_facts_snd]
        simp only [Ins.opnd, hops, List.getD, List.get?, Option.getD, get_facts_direct,
          Operand.key, MVM_spesh_get_string, get_facts_fst_strings, get_facts_fst_facts,
          Operand.strIdx] at hm ⊢
        rw [hm]
        split <;> rfl
    rw [hred]
    simp only [sp_findmeth_rewrite, MVM_spesh_add_spesh_slot, get_facts_fst_slots,
      get_facts_fst_facts, Ins.opnd, hops, List.getD, List.get?, Option.getD]
    refine ⟨?_, ?_, ?_, ?_⟩ <;> first | trivial | simp | exact fun a b => rfl

theorem C5_optimize_method_lookup_witness :
    ((optimize_method_lookup c5_env c5_graph c5_ins).1.facts 2 0).usages =
      (c5_graph.facts 2 0).usages - 1 ∧
    (optimize_method_lookup c5_env c5_graph c5_ins).2.info = op_info_sp_getspeshslot ∧
    (optimize_method_lookup c5_env c5_graph c5_ins).1.spesh_slots = [some 33] := by
  have h := (C5_optimize_method_lookup c5_env c5_graph c5_ins 1 0 2 0 0 rfl rfl).1 33
    (by decide) (by decide)
  exact ⟨h.2.2.2.2.2, h.1, h.2.2.1⟩

/-! ## C1: usage counts versus remaining reads -/

/-- C1 counterexample: the c1 graph enters optimization with usage counts
equal to read counts for every register, but after MVM_spesh_optimize the
islist rewritten to a constant has removed the only read of (2, 0) while its
usage count still says 1. -/
theorem C1_counterexample :
    count_reads c1_graph (2, 0) = 1 ∧ (c1_graph.facts 2 0).usages = 1 ∧
    count_reads (MVM_spesh_optimize env_default seen_false c1_graph) (2, 0) = 0 ∧
    ((MVM_spesh_optimize env_default seen_false c1_graph).facts 2 0).usages = 1 ∧
    ((MVM_spesh_optimize env_default seen_false c1_graph).facts 2 0).usages ≠
      (count_reads (MVM_spesh_optimize env_default seen_false c1_graph) (2, 0) : Int) :=
  ⟨by decide, by decide, by decide, by decide, by decide⟩

/-- C1 amended: the constant-false rewrite of optimize_is_reprid removes the
read of the object register (the operand becomes a literal) while leaving
every usage count unchanged, so after optimization usages can exceed the
remaining reads. -/
theorem C1_is_reprid_keeps_usages (env : Env) (g : SpeshGraph) (ins : Ins)
    (d_o d_i o_o o_i : Nat)
    (hopc : ins.info.opcode = Op.islist)
    (hops : ins.operands = [Operand.reg d_o d_i, Operand.reg o_o o_i])
    (hkt : (g.facts o_o o_i).flags.known_type = true)
    (hrep : env.repr_id (g.facts o_o o_i).type ≠ MVM_REPR_ID_MVMArray) :
    (optimize_is_reprid env g ins).2.info = op_info_const_i64_16 ∧
    (optimize_is_reprid env g ins).2.operands = [Operand.reg d_o d_i, Operand.lit_i16 0] ∧
    ∀ a b, ((optimize_is_reprid env g ins).1.facts a b).usages = (g.facts a b).usages := by
  simp only [optimize_is_reprid, Ins.opnd, hops, List.getD, List.get?, Option.getD,
    get_facts_snd, get_facts_fst_facts, get_facts_direct, Operand.key, hkt, hopc, hrep,
    Bool.not_true, if_neg, if_true, if_false, Bool.false_eq_true, update_facts_read]
  refine ⟨?_, ?_, ?_⟩ <;>
    first
    | trivial
    | (intro a b
       split <;> rfl)

theorem C1_is_reprid_keeps_usages_witness :
    (optimize_is_reprid env_default c1_graph c1_insB).2.info = op_info_const_i64_16 ∧
    (optimize_is_reprid env_default c1_graph c1_insB).2.operands =
      [Operand.reg 1 0, Operand.lit_i16 0] ∧
    ∀ a b, ((optimize_is_reprid env_default c1_graph c1_insB).1.facts a b).usages =
      (c1_graph.facts a b).usages :=
  C1_is_reprid_keeps_usages env_default c1_graph c1_insB 1 0 2 0 rfl rfl (by decide)
    (by decide)

/-! ## C3: truthy branches on known value zero -/

/-- C3 counterexample: on if_i with known flag value 0 the whole graph ends
with the branch deleted and no goto anywhere, not with a goto to the
fall-through. -/
theorem C3_counterexample :
    get_bb (MVM_spesh_optimize env_default seen_false c3_graph) 0 =
      some ⟨0, 0, [], [1], [1, 2], false⟩ ∧
    count_opcode (MVM_spesh_optimize env_default seen_false c3_graph) Op.goto = 0 :=
  ⟨by decide, by decide⟩

/-- C3 amended: a known zero flag deletes an if_i branch, removing the
labeled successor (control falls through), while it turns an unless_i branch
into an unconditional goto whose operand is the labeled block, removing the
linear-next successor; in both cases the flag's usage count drops by one. -/
theorem C3_iffy_known_zero (env : Env) (g : SpeshGraph) (succ : List Nat)
    (linearNext : Option Nat) (ins : Ins) (f_o f_i target : Nat)
    (hops : ins.operands = [Operand.reg f_o f_i, Operand.ins_bb target])
    (hkv : (g.facts f_o f_i).flags.known_value = true)
    (hzero : (g.facts f_o f_i).value.i64 = 0) :
    (ins.info.opcode = Op.if_i →
      optimize_iffy env g succ linearNext ins =
        (update_facts (MVM_spesh_get_facts g (Operand.reg f_o f_i)).1 (f_o, f_i)
          (fun f => { f with usages := f.usages - 1 }),
         succ.erase target, none)) ∧
    (ins.info.opcode = Op.unless_i →
      optimize_iffy env g succ linearNext ins =
        (update_facts (MVM_spesh_get_facts g (Operand.reg f_o f_i)).1 (f_o, f_i)
          (fun f => { f with usages := f.usages - 1 }),
         (match linearNext with | some ln => succ.erase ln | none => succ),
         some { ins with info := op_info_goto,
                         operands := [Operand.ins_bb target, Operand.ins_bb target] })) := by
  constructor
  · intro hopc
    simp only [optimize_iffy, hopc, hops, Ins.opnd, List.getD, List.get?, Option.getD,
      get_facts_snd, get_facts_fst_facts, get_facts_direct, Operand.key, Operand.bbTarget,
      hkv, hzero, Op.if_i, Op.if_s, Op.if_n, Op.if_o, Op.ifnonnull, Op.unless_i,
      Op.unless_s, Op.unless_n, Op.unless_o, if_true, if_false]
    norm_num
  · intro hopc
    simp only [optimize_iffy, hopc, hops, Ins.opnd, List.getD, List.get?, Option.getD,
      get_facts_snd, get_facts_fst_facts, get_facts_direct, Operand.key, Operand.bbTarget,
      hkv, hzero, Op.if_i, Op.if_s, Op.if_n, Op.if_o, Op.ifnonnull, Op.unless_i,
      Op.unless_s, Op.unless_n, Op.unless_o, if_true, if_false]
    norm_num

theorem C3_iffy_known_zero_witness :
    optimize_iffy env_default c3_graph [1, 2] (some 1) c3_if =
      (update_facts (MVM_spesh_get_facts c3_graph (Operand.reg 1 0)).1 (1, 0)
        (fun f => { f with usages := f.usages - 1 }),
       [1], none) :=
  (C3_iffy_known_zero env_default c3_graph [1, 2] (some 1) c3_if 1 0 2 rfl (by decide)
    (by decide)).1 rfl

/-! ## C9: can and can_s are left alone by the driver dispatch -/

/-- C9 counterexample: the driver is not fact-preserving around a can
instruction: the preceding isconcrete rewrite enriches the facts of the can's
operand (1, 0), even though the can instruction itself is untouched. -/
theorem C9_counterexample :
    (c9_graph.facts 1 0).flags.known_value = false ∧
    ((MVM_spesh_optimize env_default seen_false c9_graph).facts 1 0).flags.known_value = true ∧
    (get_bb (MVM_spesh_optimize env_default seen_false c9_graph) 0).map
      (fun b => b.ins.getD 1 default) = some c9_can :=
  ⟨by decide, by decide, by decide⟩

/-- C9 amended: dispatching a can or can_s instruction performs no action at
all: the graph, argument tracking, successors and the instruction itself come
back unchanged (the optimize_can_op rewrite is disabled). -/
theorem C9_can_dispatch_identity (env : Env) (g : SpeshGraph) (bbId : Nat)
    (succ : List Nat) (linearNext : Option Nat) (ai : MVMSpeshCallInfo) (ins : Ins)
    (next : Option Ins)
    (h : ins.info.opcode = Op.can ∨ ins.info.opcode = Op.can_s) :
    optimize_ins env g bbId succ linearNext ai ins next = ⟨g, ai, succ, [ins], false⟩ := by
  rcases h with h | h <;>
    simp only [optimize_ins, h, StepOut.keep, Op.set, Op.if_i, Op.unless_i, Op.if_n,
      Op.unless_n, Op.if_o, Op.unless_o, Op.prepargs, Op.arg_i, Op.arg_n, Op.arg_s,
      Op.arg_o, Op.argconst_i, Op.argconst_n, Op.argconst_s, Op.coerce_in, Op.invoke_v,
      Op.invoke_i, Op.invoke_n, Op.invoke_s, Op.invoke_o, Op.islist, Op.ishash, Op.isint,
      Op.isnum, Op.isstr, Op.findmeth, Op.can, Op.can_s, if_true, if_false] <;>
    norm_num

theorem C9_can_dispatch_identity_witness :
    optimize_ins env_default c9_graph 0 [] none MVMSpeshCallInfo.init c9_can none =
      ⟨c9_graph, MVMSpeshCallInfo.init, [], [c9_can], false⟩ :=
  C9_can_dispatch_identity env_default c9_graph 0 [] none MVMSpeshCallInfo.init c9_can
    none (Or.inl rfl)

/-! ## C2: MVM_spesh_optimize is not idempotent -/

/-- C2 counterexample: optimizing the c2 graph twice differs from optimizing
it once: the second pass inserts another sp_getspeshslot load and appends
another spesh slot for the same devirtualized callee. -/
theorem C2_counterexample :
    (MVM_spesh_optimize c2_env seen_false c2_graph).spesh_slots.length = 1 ∧
    (MVM_spesh_optimize c2_env seen_false
      (MVM_spesh_optimize c2_env seen_false c2_graph)).spesh_slots.length = 2 ∧
    MVM_spesh_optimize c2_env seen_false (MVM_spesh_optimize c2_env seen_false c2_graph) ≠
      MVM_spesh_optimize c2_env seen_false c2_graph := by
  refine ⟨by decide, by decide, fun h => ?_⟩
  have := congrArg (fun g => g.spesh_slots.length) h
  simp only at this
  revert this
  decide

/-- C2 amended: MVM_spesh_optimize is not idempotent: re-optimizing an
already optimized graph can add exactly one more sp_getspeshslot instruction
and one more spesh slot ahead of an invoke whose known callee devirtualizes
but matches no spesh candidate, growing the graph with each application. -/
theorem C2_reoptimize_grows :
    (MVM_spesh_optimize c2_env seen_false
        (MVM_spesh_optimize c2_env seen_false c2_graph)).spesh_slots.length =
      (MVM_spesh_optimize c2_env seen_false c2_graph).spesh_slots.length + 1 ∧
    count_opcode (MVM_spesh_optimize c2_env seen_false
        (MVM_spesh_optimize c2_env seen_false c2_graph)) Op.sp_getspeshslot =
      count_opcode (MVM_spesh_optimize c2_env seen_false c2_graph) Op.sp_getspeshslot + 1 ∧
    ins_count (MVM_spesh_optimize c2_env seen_false
        (MVM_spesh_optimize c2_env seen_false c2_graph)) =
      ins_count (MVM_spesh_optimize c2_env seen_false c2_graph) + 1 :=
  ⟨by decide, by decide, by decide⟩

/-! ## C10: log-guard used flags and unused guard elimination -/

theorem getD_set_self : ∀ (l : List LogGuard) (i : Nat) (a : LogGuard), i < l.length →
    (l.set i a).getD i default = a
  | [], i, a, h => absurd h (Nat.not_lt_zero i)
  | x :: t, 0, a, _ => rfl
  | x :: t, n + 1, a, h => getD_set_self t n a (Nat.lt_of_succ_lt_succ h)

theorem find?_id_map_update : ∀ (l : List SpeshBB) (bbId x : Nat) (f : SpeshBB → SpeshBB),
    (∀ b : SpeshBB, (f b).id = b.id) →
    (l.map (fun b => if b.id = bbId then f b else b)).find? (fun b => decide (b.id = x)) =
      (if x = bbId then (l.find? (fun b => decide (b.id = x))).map f
       else l.find? (fun b => decide (b.id = x)))
  | [], bbId, x, f, hid => by split <;> rfl
  | hd :: t, bbId, x, f, hid => by
    have hrec := find?_id_map_update t bbId x f hid
    by_cases hb : hd.id = bbId
    · by_cases hx : hd.id = x
      · have hxb : x = bbId := hx.symm.trans hb
        simp [List.find?, hb, hx, hid, hxb]
      · have hbx : ¬(bbId = x) := fun h2 => hx (hb.symm ▸ h2)
        have hxb : ¬(x = bbId) := fun h2 => hbx h2.symm
        simp [List.find?, hb, hx, hid, hrec, hbx, hxb]
    · by_cases hx : hd.id = x
      · have hxb : x ≠ bbId := fun h2 => hb (hx.trans h2)
        simp [List.find?, hb, hx, hxb]
      · simp [List.find?, hb, hx, hrec]

theorem get_bb_update_bb (g : SpeshGraph) (bbId : Nat) (f : SpeshBB → SpeshBB)
    (hid : ∀ b : SpeshBB, (f b).id = b.id) (x : Nat) :
    get_bb (update_bb g bbId f) x =
      (if x = bbId then (get_bb g x).map f else get_bb g x) :=
  find?_id_map_update g.blocks bbId x f hid

theorem delete_ins_get_bb (g : SpeshGraph) (bbId insId x : Nat) :
    get_bb (delete_ins_by_id g bbId insId) x =
      (if x = bbId then
        (get_bb g x).map (fun b => { b with ins := b.ins.filter (fun i => i.id ≠ insId) })
       else get_bb g x) :=
  get_bb_update_bb g bbId
    (fun b => { b with ins := b.ins.filter (fun i => i.id ≠ insId) }) (fun b => rfl) x

theorem elim_fold_absent : ∀ (gs : List LogGuard) (g : SpeshGraph) (bbId insId : Nat),
    (∀ b, get_bb g bbId = some b → insId ∉ ins_ids b) →
    ∀ b, get_bb (gs.foldl
        (fun g lg => if !lg.used then delete_ins_by_id g lg.bb lg.ins else g) g) bbId =
      some b → insId ∉ ins_ids b
  | [], g, bbId, insId, h => h
  | lg :: t, g, bbId, insId, h => by
    simp only [List.foldl_cons]
    apply elim_fold_absent t
    intro b hb
    by_cases hu : !lg.used
    · rw [if_pos hu, delete_ins_get_bb] at hb
      by_cases hx : bbId = lg.bb
      · rw [if_pos hx] at hb
        cases hg : get_bb g bbId with
        | none => rw [hg] at hb; cases hb
        | some b0 =>
          rw [hg] at hb
          cases hb
          intro hmem
          apply h b0 hg
          rcases List.mem_map.mp hmem with ⟨a, ha, rfl⟩
          exact List.mem_map.mpr ⟨a, List.mem_of_mem_filter ha, rfl⟩
      · rw [if_neg hx] at hb
        exact h b hb
    · rw [if_neg hu] at hb
      exact h b hb

theorem elim_fold_removes : ∀ (gs : List LogGuard) (g : SpeshGraph) (lg : LogGuard),
    lg ∈ gs → lg.used = false →
    ∀ b, get_bb (gs.foldl
        (fun g lg => if !lg.used then delete_ins_by_id g lg.bb lg.ins else g) g) lg.bb =
      some b → lg.ins ∉ ins_ids b
  | [], _, lg, h, _ => absurd h (List.not_mem_nil lg)
  | hd :: t, g, lg, hmem, hu => by
    simp only [List.foldl_cons]
    rcases List.mem_cons.mp hmem with he | ht
    · subst he
      apply elim_fold_absent t
      intro b hb
      rw [if_pos (by simp [hu]), delete_ins_get_bb, if_pos rfl] at hb
      cases hg : get_bb g lg.bb with
      | none => rw [hg] at hb; cases hb
      | some b0 =>
        rw [hg] at hb
        cases hb
        intro hmem2
        rcases List.mem_map.mp hmem2 with ⟨a, ha, haid⟩
        have := List.of_mem_filter ha
        simp only [decide_not, Bool.not_eq_true', decide_eq_false_iff_not] at this
        exact absurd haid (by simpa using this)
    · exact elim_fold_removes t _ lg ht hu

theorem elim_fold_retains : ∀ (gs : List LogGuard) (g : SpeshGraph) (bbId insId : Nat),
    (∀ lg ∈ gs, lg.used = false → ¬(lg.bb = bbId ∧ lg.ins = insId)) →
    ∀ b, get_bb g bbId = some b → insId ∈ ins_ids b →
    ∃ b', get_bb (gs.foldl
        (fun g lg => if !lg.used then delete_ins_by_id g lg.bb lg.ins else g) g) bbId =
      some b' ∧ insId ∈ ins_ids b'
  | [], g, bbId, insId, _, b, hb, hmem => ⟨b, hb, hmem⟩
  | hd :: t, g, bbId, insId, hno, b, hb, hmem => by
    simp only [List.foldl_cons]
    have step1 : ∃ b', get_bb
        (if !hd.used then delete_ins_by_id g hd.bb hd.ins else g) bbId = some b' ∧
        insId ∈ ins_ids b' := by
      cases hu : hd.used with
      | true => simp only [hu, Bool.not_true, Bool.false_eq_true, if_false]
                exact ⟨b, hb, hmem⟩
      | false =>
        have hne := hno hd (List.mem_cons_self hd t) hu
        simp only [hu, Bool.not_false, if_true]
        rw [delete_ins_get_bb]
        by_cases hx : bbId = hd.bb
        · rw [if_pos hx, hb]
          refine ⟨_, rfl, ?_⟩
          have hne2 : hd.ins ≠ insId := fun h2 => hne ⟨hx.symm, h2⟩
          rcases List.mem_map.mp hmem with ⟨a, ha, haid⟩
          refine List.mem_map.mpr ⟨a, List.mem_filter.mpr ⟨ha, ?_⟩, haid⟩
          simp only [haid]
          simpa using fun h2 => hne2 h2.symm
        · rw [if_neg hx]
          exact ⟨b, hb, hmem⟩
    rcases step1 with ⟨b', hb', hm'⟩
    exact elim_fold_retains t _ bbId insId
      (fun lg hlg => hno lg (List.mem_cons_of_mem hd hlg)) b' hb' hm'

/-- C10: MVM_spesh_get_facts marks the operand's log guard used whenever the
facts carry FROM_LOG_GUARD (whatever happens afterwards); and
eliminate_unused_log_guards removes exactly the instructions of guards whose
used flag is still clear: unused guards' instructions disappear from their
block, while an instruction no unused guard points at stays put. -/
theorem C10_log_guards :
    (∀ (g : SpeshGraph) (o : Operand),
      (get_facts_direct g o).flags.from_log_guard = true →
      (get_facts_direct g o).log_guard < g.log_guards.length →
      ((MVM_spesh_get_facts g o).1.log_guards.getD (get_facts_direct g o).log_guard
        default).used = true) ∧
    (∀ (g : SpeshGraph) (lg : LogGuard), lg ∈ g.log_guards → lg.used = false →
      ∀ b, get_bb (eliminate_unused_log_guards g) lg.bb = some b → lg.ins ∉ ins_ids b) ∧
    (∀ (g : SpeshGraph) (bbId insId : Nat),
      (∀ lg ∈ g.log_guards, lg.used = false → ¬(lg.bb = bbId ∧ lg.ins = insId)) →
      ∀ b, get_bb g bbId = some b → insId ∈ ins_ids b →
      ∃ b', get_bb (eliminate_unused_log_guards g) bbId = some b' ∧ insId ∈ ins_ids b') := by
  refine ⟨?_, ?_, ?_⟩
  · intro g o hflg hlt
    simp only [MVM_spesh_get_facts, hflg, if_pos, set_log_guard_used]
    rw [getD_set_self _ _ _ hlt]
  · intro g lg hmem hu b hb
    exact elim_fold_removes g.log_guards g lg hmem hu b hb
  · intro g bbId insId hno b hb hmem
    exact elim_fold_retains g.log_guards g bbId insId hno b hb hmem

theorem C10_log_guards_witness :
    (((MVM_spesh_get_facts c10_graph (Operand.reg 1 0)).1.log_guards.getD 0 default).used
      = true) ∧
    (∀ b, get_bb (eliminate_unused_log_guards c10_graph) 0 = some b → 7 ∉ ins_ids b) ∧
    (∃ b', get_bb (eliminate_unused_log_guards c10_graph) 0 = some b' ∧ 8 ∈ ins_ids b') := by
  refine ⟨C10_log_guards.1 c10_graph (Operand.reg 1 0) (by decide) (by decide), ?_, ?_⟩
  · exact C10_log_guards.2.1 c10_graph ⟨7, 0, false⟩ (by decide) rfl
  · exact C10_log_guards.2.2 c10_graph 0 8 (by decide)
      ⟨0, 0, [c10_ins7, c10_ins8], [], [], false⟩ (by decide) (by decide)

/-! ## C7: unreachable block elimination, entry and inlined preservation -/

theorem mark_fold_mono (g : SpeshGraph) : ∀ (l : List Nat) (seen : Nat → Bool) (i : Nat),
    seen i = true →
    (l.foldl (fun seen sId =>
      match get_bb g sId with
      | some sbb => fun i => if i = sbb.idx then true else seen i
      | none => seen) seen) i = true
  | [], _, _, h => h
  | s :: t, seen, i, h => by
    simp only [List.foldl_cons]
    apply mark_fold_mono g t
    cases hs : get_bb g s with
    | none => simpa [hs] using h
    | some sbb =>
      simp only [hs]
      by_cases hi : i = sbb.idx
      · simp [hi]
      · simp [hi, h]

theorem mark_fold_marks (g : SpeshGraph) :
    ∀ (l : List Nat) (seen : Nat → Bool) (sId : Nat) (sbb : SpeshBB),
      sId ∈ l → get_bb g sId = some sbb →
      (l.foldl (fun seen sId =>
        match get_bb g sId with
        | some sbb => fun i => if i = sbb.idx then true else seen i
        | none => seen) seen) sbb.idx = true
  | [], _, sId, _, hmem, _ => absurd hmem (List.not_mem_nil sId)
  | s :: t, seen, sId, sbb, hmem, hget => by
    simp only [List.foldl_cons]
    rcases List.mem_cons.mp hmem with he | ht
    · subst he
      apply mark_fold_mono g t
      simp [hget]
    · exact mark_fold_marks g t _ sId sbb ht hget

theorem mark_block_succ_mono (g : SpeshGraph) (seen : Nat → Bool) (bbId i : Nat)
    (h : seen i = true) : mark_block_succ g seen bbId i = true := by
  unfold mark_block_succ
  cases hb : get_bb g bbId with
  | none => exact h
  | some bb => exact mark_fold_mono g bb.succ seen i h

theorem mark_block_succ_marks (g : SpeshGraph) (seen : Nat → Bool) (bbId : Nat)
    (bb : SpeshBB) (sId : Nat) (sbb : SpeshBB)
    (hb : get_bb g bbId = some bb) (hs : sId ∈ bb.succ) (hg : get_bb g sId = some sbb) :
    mark_block_succ g seen bbId sbb.idx = true := by
  unfold mark_block_succ
  rw [hb]
  exact mark_fold_marks g bb.succ seen sId sbb hs hg

theorem chain_fold_mono (g : SpeshGraph) : ∀ (l : List Nat) (seen : Nat → Bool) (i : Nat),
    seen i = true →
    (l.foldl (fun seen bbId => mark_block_succ g seen bbId) seen) i = true
  | [], _, _, h => h
  | b :: t, seen, i, h => chain_fold_mono g t _ i (mark_block_succ_mono g seen b i h)

theorem chain_fold_marks (g : SpeshGraph) :
    ∀ (l : List Nat) (seen : Nat → Bool) (B : Nat) (bb : SpeshBB) (sId : Nat) (sbb : SpeshBB),
      B ∈ l → get_bb g B = some bb → sId ∈ bb.succ → get_bb g sId = some sbb →
      (l.foldl (fun seen bbId => mark_block_succ g seen bbId) seen) sbb.idx = true
  | [], _, B, _, _, _, hmem, _, _, _ => absurd hmem (List.not_mem_nil B)
  | b :: t, seen, B, bb, sId, sbb, hmem, hB, hs, hg => by
    rcases List.mem_cons.mp hmem with he | ht
    · subst he
      exact chain_fold_mono g t _ _ (mark_block_succ_marks g seen B bb sId sbb hB hs hg)
    · exact chain_fold_marks g t _ B bb sId sbb ht hB hs hg

theorem dbb_mark_marks (g : SpeshGraph) (seen0 : Nat → Bool) (B : Nat) (bb : SpeshBB)
    (sId : Nat) (sbb : SpeshBB)
    (hmem : B ∈ g.chain) (hB : get_bb g B = some bb) (hs : sId ∈ bb.succ)
    (hg : get_bb g sId = some sbb) :
    dbb_mark g seen0 sbb.idx = true :=
  chain_fold_marks g g.chain _ B bb sId sbb hmem hB hs hg

theorem dbb_removable_not_keep (g : SpeshGraph) (seen : Nat → Bool) (x : Nat)
    (h : dbb_removable g seen x = true) : ¬dbb_keep g seen x := by
  unfold dbb_removable at h
  unfold dbb_keep
  cases hx : get_bb g x with
  | none => rw [hx] at h; cases h
  | some bb =>
    rw [hx] at h
    simp only [Bool.and_eq_true, Bool.not_eq_true'] at h
    rintro (hk | hk)
    · rw [h.1] at hk; cases hk
    · rw [h.2] at hk; cases hk

theorem dbb_sweep_head (g : SpeshGraph) (seen : Nat → Bool) (hd : Nat) (rest : List Nat) :
    ∃ tl, (dbb_sweep g seen hd rest).1 = hd :: tl := by
  cases rest with
  | nil => exact ⟨[], rfl⟩
  | cons b rest2 =>
    unfold dbb_sweep
    split
    · split
      · exact ⟨[], rfl⟩
      · exact ⟨_, rfl⟩
    · exact ⟨_, rfl⟩

theorem dbb_sweep_keeps (g : SpeshGraph) (seen : Nat → Bool) :
    ∀ (rest : List Nat) (hd x : Nat),
      (x = hd ∨ (x ∈ rest ∧ dbb_keep g seen x)) →
      x ∈ (dbb_sweep g seen hd rest).1
  | [], hd, x, h => by
    rcases h with he | ⟨hm, _⟩
    · subst he; exact List.mem_singleton.mpr rfl
    · exact absurd hm (List.not_mem_nil x)
  | [b], hd, x, h => by
    by_cases hrem : dbb_removable g seen b = true
    · simp only [dbb_sweep, hrem, if_true]
      rcases h with he | ⟨hm, hk⟩
      · subst he; exact List.mem_singleton.mpr rfl
      · rw [List.mem_singleton] at hm
        subst hm
        exact absurd hk (dbb_removable_not_keep g seen x hrem)
    · simp only [dbb_sweep, hrem, if_false, Bool.false_eq_true]
      rcases h with he | ⟨hm, hk⟩
      · subst he; exact List.mem_cons_self _ _
      · rw [List.mem_singleton] at hm
        subst hm
        exact List.mem_cons_of_mem hd (List.mem_singleton.mpr rfl)
  | b :: c :: rest2, hd, x, h => by
    by_cases hrem : dbb_removable g seen b = true
    · simp only [dbb_sweep, hrem, if_true]
      rcases h with he | ⟨hm, hk⟩
      · subst he; exact List.mem_cons_self _ _
      · rcases List.mem_cons.mp hm with he2 | hm2
        · subst he2
          exact absurd hk (dbb_removable_not_keep g seen x hrem)
        · refine List.mem_cons_of_mem hd (dbb_sweep_keeps g seen rest2 c x ?_)
          rcases List.mem_cons.mp hm2 with he3 | hm3
          · exact Or.inl he3
          · exact Or.inr ⟨hm3, hk⟩
    · simp only [dbb_sweep, hrem, if_false, Bool.false_eq_true]
      rcases h with he | ⟨hm, hk⟩
      · subst he; exact List.mem_cons_self _ _
      · refine List.mem_cons_of_mem hd (dbb_sweep_keeps g seen (c :: rest2) b x ?_)
        rcases List.mem_cons.mp hm with he2 | hm2
        · exact Or.inl he2
        · exact Or.inr ⟨hm2, hk⟩

theorem dbb_iter_blocks (g : SpeshGraph) (seen0 : Nat → Bool) :
    (dbb_iter g seen0).1.blocks = g.blocks := by
  unfold dbb_iter
  split <;> rfl

theorem get_bb_congr_blocks (g1 g2 : SpeshGraph) (h : g1.blocks = g2.blocks) (x : Nat) :
    get_bb g1 x = get_bb g2 x := by
  unfold get_bb
  rw [h]

theorem dbb_iter_chain_head (g : SpeshGraph) (seen0 : Nat → Bool) :
    (dbb_iter g seen0).1.chain.head? = g.chain.head? := by
  cases hc : g.chain with
  | nil => simp only [dbb_iter, hc]
  | cons hd rest =>
    rcases dbb_sweep_head g (dbb_mark g seen0) hd rest with ⟨tl, htl⟩
    simp only [dbb_iter, hc, htl]
    rfl

theorem dbb_iter_keeps_inlined (g : SpeshGraph) (seen0 : Nat → Bool) (x : Nat)
    (bb : SpeshBB) (hin : x ∈ g.chain) (hbb : get_bb g x = some bb)
    (hinl : bb.inlined = true) : x ∈ (dbb_iter g seen0).1.chain := by
  unfold dbb_iter
  cases hc : g.chain with
  | nil => rw [hc] at hin; exact absurd hin (List.not_mem_nil x)
  | cons hd rest =>
    rw [hc] at hin
    show x ∈ (dbb_sweep g (dbb_mark g seen0) hd rest).1
    apply dbb_sweep_keeps
    rcases List.mem_cons.mp hin with he | hm
    · exact Or.inl he
    · refine Or.inr ⟨hm, ?_⟩
      unfold dbb_keep
      rw [hbb]
      exact Or.inr hinl

theorem dbb_iter_removed (g : SpeshGraph) (seen0 : Nat → Bool) (x : Nat)
    (hin : x ∈ g.chain) (hout : x ∉ (dbb_iter g seen0).1.chain) :
    (∃ bb, get_bb g x = some bb ∧ bb.inlined = false ∧ dbb_mark g seen0 bb.idx = false) ∧
    (∀ hd, g.chain.head? = some hd → x ≠ hd) ∧
    (∀ B bb2, B ∈ g.chain → get_bb g B = some bb2 → x ∉ bb2.succ) := by
  cases hc : g.chain with
  | nil => rw [hc] at hin; exact absurd hin (List.not_mem_nil x)
  | cons hd rest =>
    have hres : (dbb_iter g seen0).1.chain = (dbb_sweep g (dbb_mark g seen0) hd rest).1 := by
      unfold dbb_iter
      rw [hc]
    rw [hc] at hin
    have hne : x ≠ hd := by
      intro he
      apply hout
      rw [hres]
      exact dbb_sweep_keeps g (dbb_mark g seen0) rest hd x (Or.inl he)
    have hrest : x ∈ rest := by
      rcases List.mem_cons.mp hin with he | hm
      · exact absurd he hne
      · exact hm
    have hkeep : ¬dbb_keep g (dbb_mark g seen0) x := by
      intro hk
      apply hout
      rw [hres]
      exact dbb_sweep_keeps g (dbb_mark g seen0) rest hd x (Or.inr ⟨hrest, hk⟩)
    have hbb : ∃ bb, get_bb g x = some bb ∧ bb.inlined = false ∧
        dbb_mark g seen0 bb.idx = false := by
      unfold dbb_keep at hkeep
      cases hx : get_bb g x with
      | none => rw [hx] at hkeep; exact absurd trivial hkeep
      | some bb =>
        rw [hx] at hkeep
        have h1 : dbb_mark g seen0 bb.idx = false :=
          Bool.eq_false_iff.mpr (fun h2 => hkeep (Or.inl h2))
        have h2 : bb.inlined = false :=
          Bool.eq_false_iff.mpr (fun h2 => hkeep (Or.inr h2))
        exact ⟨bb, rfl, h2, h1⟩
    refine ⟨hbb, ?_, ?_⟩
    · intro hd' hhd'
      have hhd2 : hd = hd' := by simpa using hhd'
      rw [← hhd2]
      exact hne
    · intro B bb2 hB hgB hsucc
      rcases hbb with ⟨bb, hx, _, hmark⟩
      have := dbb_mark_marks g seen0 B bb2 x bb (by rw [hc]; exact hB) hgB hsucc hx
      rw [hmark] at this
      cases this

theorem dbb_loop_head : ∀ (n : Nat) (g : SpeshGraph) (seen : Nat → Bool),
    (dbb_loop n g seen).chain.head? = g.chain.head?
  | 0, _, _ => rfl
  | n + 1, g, seen => by
    simp only [dbb_loop]
    split
    · rw [dbb_loop_head n]
      exact dbb_iter_chain_head g seen
    · exact dbb_iter_chain_head g seen

theorem dbb_loop_keeps_inlined : ∀ (n : Nat) (g : SpeshGraph) (seen : Nat → Bool)
    (x : Nat) (bb : SpeshBB), x ∈ g.chain → get_bb g x = some bb → bb.inlined = true →
    x ∈ (dbb_loop n g seen).chain
  | 0, _, _, _, _, hin, _, _ => hin
  | n + 1, g, seen, x, bb, hin, hbb, hinl => by
    simp only [dbb_loop]
    split
    · exact dbb_loop_keeps_inlined n _ _ x bb
        (dbb_iter_keeps_inlined g seen x bb hin hbb hinl)
        ((get_bb_congr_blocks _ g (dbb_iter_blocks g seen) x).trans hbb) hinl
    · exact dbb_iter_keeps_inlined g seen x bb hin hbb hinl

theorem renumber_fold_chain : ∀ (l : List Nat) (p : SpeshGraph × Nat),
    ((l.foldl (fun (p : SpeshGraph × Nat) bbId =>
      (update_bb p.1 bbId (fun b => { b with idx := p.2 }), p.2 + 1)) p).1).chain =
      p.1.chain
  | [], _ => rfl
  | b :: t, p => renumber_fold_chain t _

theorem renumber_bbs_chain (g : SpeshGraph) : (renumber_bbs g).chain = g.chain :=
  renumber_fold_chain g.chain (g, 0)

/-- C7: eliminate_dead_bbs keeps the entry block at the head of the chain and
keeps every inlined chain block; and any block one iteration removes from the
chain was not inlined, was not the entry, and was not a successor of any
block on the chain at that iteration's start (its idx was left unmarked). -/
theorem C7_eliminate_dead_bbs :
    (∀ (g : SpeshGraph) (seen0 : Nat → Bool),
      (eliminate_dead_bbs g seen0).chain.head? = g.chain.head?) ∧
    (∀ (g : SpeshGraph) (seen0 : Nat → Bool) (x : Nat) (bb : SpeshBB),
      x ∈ g.chain → get_bb g x = some bb → bb.inlined = true →
      x ∈ (eliminate_dead_bbs g seen0).chain) ∧
    (∀ (g : SpeshGraph) (seen0 : Nat → Bool) (x : Nat),
      x ∈ g.chain → x ∉ (dbb_iter g seen0).1.chain →
      (∃ bb, get_bb g x = some bb ∧ bb.inlined = false ∧
        dbb_mark g seen0 bb.idx = false) ∧
      (∀ hd, g.chain.head? = some hd → x ≠ hd) ∧
      (∀ B bb2, B ∈ g.chain → get_bb g B = some bb2 → x ∉ bb2.succ)) := by
  refine ⟨?_, ?_, fun g seen0 x hin hout => dbb_iter_removed g seen0 x hin hout⟩
  · intro g seen0
    simp only [eliminate_dead_bbs]
    split
    · rw [renumber_bbs_chain]
      exact dbb_loop_head _ g seen0
    · exact dbb_loop_head _ g seen0
  · intro g seen0 x bb hin hbb hinl
    simp only [eliminate_dead_bbs]
    split
    · rw [renumber_bbs_chain]
      exact dbb_loop_keeps_inlined _ g seen0 x bb hin hbb hinl
    · exact dbb_loop_keeps_inlined _ g seen0 x bb hin hbb hinl

/-- A small graph exercising C7: entry 0 points at inlined block 1; block 2
is unreachable and not inlined. -/
def c7_graph : SpeshGraph :=
  { graph0 with
    blocks := [⟨0, 0, [], [1], [], false⟩, ⟨1, 1, [], [], [], true⟩,
               ⟨2, 2, [], [], [], false⟩]
    chain := [0, 1, 2]
    num_bbs := 3 }

theorem C7_eliminate_dead_bbs_witness :
    (eliminate_dead_bbs c7_graph seen_false).chain.head? = c7_graph.chain.head? ∧
    1 ∈ (eliminate_dead_bbs c7_graph seen_false).chain ∧
    ((∃ bb, get_bb c7_graph 2 = some bb ∧ bb.inlined = false ∧
        dbb_mark c7_graph seen_false bb.idx = false) ∧
      (∀ hd, c7_graph.chain.head? = some hd → 2 ≠ hd) ∧
      (∀ B bb2, B ∈ c7_graph.chain → get_bb c7_graph B = some bb2 → 2 ∉ bb2.succ)) := by
  refine ⟨C7_eliminate_dead_bbs.1 c7_graph seen_false, ?_, ?_⟩
  · exact C7_eliminate_dead_bbs.2.1 c7_graph seen_false 1 ⟨1, 1, [], [], [], true⟩
      (by decide) (by decide) rfl
  · exact C7_eliminate_dead_bbs.2.2 c7_graph seen_false 2 (by decide) (by decide)

/-! ## C6: dead instruction elimination reaches a dead-free fixed point -/

theorem update_bb_chain (g : SpeshGraph) (x : Nat) (f : SpeshBB → SpeshBB) :
    (update_bb g x f).chain = g.chain := rfl

theorem update_bb_facts (g : SpeshGraph) (x : Nat) (f : SpeshBB → SpeshBB) :
    (update_bb g x f).facts = g.facts := rfl

theorem foldl_graph_blocks (F : SpeshGraph → Nat → SpeshGraph)
    (hF : ∀ (g : SpeshGraph) (a : Nat), (F g a).blocks = g.blocks) :
    ∀ (l : List Nat) (g : SpeshGraph), (l.foldl F g).blocks = g.blocks
  | [], _ => rfl
  | a :: t, g => (foldl_graph_blocks F hF t (F g a)).trans (hF g a)

theorem foldl_graph_chain (F : SpeshGraph → Nat → SpeshGraph)
    (hF : ∀ (g : SpeshGraph) (a : Nat), (F g a).chain = g.chain) :
    ∀ (l : List Nat) (g : SpeshGraph), (l.foldl F g).chain = g.chain
  | [], _ => rfl
  | a :: t, g => (foldl_graph_chain F hF t (F g a)).trans (hF g a)

theorem dec_usages_get_blocks (g : SpeshGraph) (o : Operand) :
    (dec_usages_get g o).blocks = g.blocks := by
  simp only [dec_usages_get, update_facts_blocks, get_facts_fst_blocks]

theorem dec_usages_get_chain (g : SpeshGraph) (o : Operand) :
    (dec_usages_get g o).chain = g.chain := by
  simp only [dec_usages_get, update_facts_chain, get_facts_fst_chain]

theorem dead_ins_step_blocks (g : SpeshGraph) (ins : Ins) :
    (dead_ins_step g ins).1.blocks = g.blocks := by
  unfold dead_ins_step
  dsimp only
  split
  · split
    · exact (foldl_graph_blocks _ (fun g i => dec_usages_get_blocks g _) _ _).trans
        (get_facts_fst_blocks g _)
    · exact get_facts_fst_blocks g _
  split
  · split
    · split
      · refine (foldl_graph_blocks _ (fun g i => ?_) _ _).trans (get_facts_fst_blocks g _)
        split
        · exact dec_usages_get_blocks g _
        · rfl
      · exact get_facts_fst_blocks g _
    · rfl
  · rfl

theorem dead_ins_step_chain (g : SpeshGraph) (ins : Ins) :
    (dead_ins_step g ins).1.chain = g.chain := by
  unfold dead_ins_step
  dsimp only
  split
  · split
    · exact (foldl_graph_chain _ (fun g i => dec_usages_get_chain g _) _ _).trans
        (get_facts_fst_chain g _)
    · exact get_facts_fst_chain g _
  split
  · split
    · split
      · refine (foldl_graph_chain _ (fun g i => ?_) _ _).trans (get_facts_fst_chain g _)
        split
        · exact dec_usages_get_chain g _
        · rfl
      · exact get_facts_fst_chain g _
    · rfl
  · rfl

theorem dead_ins_step_death (g : SpeshGraph) (ins : Ins) :
    (dead_ins_step g ins).2.2 = dead_check g ins := by
  unfold dead_ins_step dead_check
  simp only [get_facts_snd]
  split_ifs <;> simp_all

theorem dead_ins_step_keep (g : SpeshGraph) (ins : Ins) :
    (dead_ins_step g ins).2.1 = !dead_check g ins := by
  unfold dead_ins_step dead_check
  simp only [get_facts_snd]
  split_ifs <;> simp_all

theorem dead_ins_step_facts_of_not_dead (g : SpeshGraph) (ins : Ins)
    (h : dead_check g ins = false) :
    (dead_ins_step g ins).1.facts = g.facts := by
  unfold dead_check at h
  unfold dead_ins_step
  simp only [get_facts_snd]
  split_ifs at h ⊢ <;>
    first
    | rfl
    | exact get_facts_fst_facts g _
    | simp_all

theorem dead_check_congr (g1 g2 : SpeshGraph) (ins : Ins) (h : g1.facts = g2.facts) :
    dead_check g1 ins = dead_check g2 ins := by
  unfold dead_check get_facts_direct
  rw [h]

theorem dead_check_eq_false_iff (g : SpeshGraph) (ins : Ins) :
    dead_check g ins = false ↔
      ¬((ins.info.opcode = Op.phi ∨
          (ins.info.pure = true ∧ spec_at ins.info 0 = OperandSpec.write_reg)) ∧
        (get_facts_direct g (ins.opnd 0)).usages = 0) := by
  unfold dead_check
  split
  · next hphi => simp [hphi]
  next hphi =>
    split
    · next hpure =>
      split
      · next hw => simp [hphi, hpure, hw]
      · next hw => simp [hphi, hpure, hw]
    · next hpure => simp [hphi, Bool.not_eq_true _ ▸ hpure]

theorem sweep_rev_blocks : ∀ (l : List Ins) (g : SpeshGraph),
    (sweep_rev g l).1.blocks = g.blocks
  | [], _ => rfl
  | ins :: rest, g => by
    unfold sweep_rev
    exact (sweep_rev_blocks rest _).trans (dead_ins_step_blocks g ins)

theorem sweep_rev_chain : ∀ (l : List Ins) (g : SpeshGraph),
    (sweep_rev g l).1.chain = g.chain
  | [], _ => rfl
  | ins :: rest, g => by
    unfold sweep_rev
    exact (sweep_rev_chain rest _).trans (dead_ins_step_chain g ins)

theorem sweep_rev_no_death : ∀ (l : List Ins) (g : SpeshGraph),
    (sweep_rev g l).2.2 = false →
    (sweep_rev g l).2.1 = l ∧ (sweep_rev g l).1.facts = g.facts ∧
    ∀ ins ∈ l, dead_check g ins = false
  | [], g, _ => ⟨rfl, rfl, fun ins h => absurd h (List.not_mem_nil ins)⟩
  | ins :: rest, g, hnd => by
    have hsplit : (dead_ins_step g ins).2.2 = false ∧
        (sweep_rev (dead_ins_step g ins).1 rest).2.2 = false :=
      Bool.or_eq_false_iff.mp
        (hnd : ((dead_ins_step g ins).2.2 ||
          (sweep_rev (dead_ins_step g ins).1 rest).2.2) = false)
    have hdc : dead_check g ins = false := (dead_ins_step_death g ins).symm.trans hsplit.1
    have hfacts : (dead_ins_step g ins).1.facts = g.facts :=
      dead_ins_step_facts_of_not_dead g ins hdc
    have ih := sweep_rev_no_death rest (dead_ins_step g ins).1 hsplit.2
    refine ⟨?_, ?_, ?_⟩
    · show ((if (dead_ins_step g ins).2.1 then [ins] else []) ++
        (sweep_rev (dead_ins_step g ins).1 rest).2.1) = ins :: rest
      rw [dead_ins_step_keep, hdc, ih.1]
      rfl
    · show (sweep_rev (dead_ins_step g ins).1 rest).1.facts = g.facts
      rw [ih.2.1, hfacts]
    · intro i hi
      rcases List.mem_cons.mp hi with he | hm
      · subst he; exact hdc
      · have h2 := ih.2.2 i hm
        rwa [dead_check_congr _ g i hfacts] at h2

theorem sweep_rev_len : ∀ (l : List Ins) (g : SpeshGraph),
    (sweep_rev g l).2.1.length ≤ l.length ∧
    ((sweep_rev g l).2.2 = true → (sweep_rev g l).2.1.length < l.length)
  | [], g => ⟨Nat.le_refl 0, fun h => by cases h⟩
  | ins :: rest, g => by
    have ih := sweep_rev_len rest (dead_ins_step g ins).1
    have hile := ih.1
    have hkd : (dead_ins_step g ins).2.1 = !(dead_ins_step g ins).2.2 := by
      rw [dead_ins_step_keep, dead_ins_step_death]
    have hlen : (sweep_rev g (ins :: rest)).2.1.length =
        (if (dead_ins_step g ins).2.1 then 1 else 0) +
          (sweep_rev (dead_ins_step g ins).1 rest).2.1.length := by
      show ((if (dead_ins_step g ins).2.1 then [ins] else []) ++
        (sweep_rev (dead_ins_step g ins).1 rest).2.1).length = _
      rw [List.length_append]
      cases (dead_ins_step g ins).2.1 <;> rfl
    have hdeath : (sweep_rev g (ins :: rest)).2.2 =
        ((dead_ins_step g ins).2.2 || (sweep_rev (dead_ins_step g ins).1 rest).2.2) := rfl
    constructor
    · rw [hlen]
      show _ ≤ rest.length + 1
      split <;> omega
    · intro hd
      rw [hdeath] at hd
      rw [hlen]
      show _ < rest.length + 1
      rcases Bool.or_eq_true_iff.mp hd with h1 | h1
      · have hk2 : (dead_ins_step g ins).2.1 = false := by
          rw [hkd, h1]
          rfl
        rw [hk2]
        simp only [Bool.false_eq_true, if_false]
        omega
      · have hlt := ih.2 h1
        split <;> omega


theorem sweep_blocks_chain : ∀ (l : List Nat) (g : SpeshGraph),
    (sweep_blocks g l).1.chain = g.chain
  | [], _ => rfl
  | bbId :: rest, g => by
    unfold sweep_blocks
    split
    · exact sweep_blocks_chain rest g
    · exact ((sweep_blocks_chain rest _).trans (update_bb_chain _ _ _)).trans
        (sweep_rev_chain _ g)

theorem sweep_blocks_no_death : ∀ (l : List Nat) (g : SpeshGraph),
    (sweep_blocks g l).2 = false →
    (sweep_blocks g l).1.facts = g.facts ∧
    (∀ x, get_bb (sweep_blocks g l).1 x = get_bb g x) ∧
    (∀ id ∈ l, ∀ bb : SpeshBB, get_bb g id = some bb →
      ∀ ins ∈ bb.ins, dead_check g ins = false)
  | [], g, _ => ⟨rfl, fun _ => rfl, fun id h => absurd h (List.not_mem_nil id)⟩
  | bbId :: rest, g, hnd => by
    rcases hbb : get_bb g bbId with _ | bb
    · have heq : sweep_blocks g (bbId :: rest) = sweep_blocks g rest := by
        conv_lhs => unfold sweep_blocks
        rw [hbb]
      rw [heq] at hnd ⊢
      have ih := sweep_blocks_no_death rest g hnd
      refine ⟨ih.1, ih.2.1, ?_⟩
      intro id hid bb2 hbb2 ins hins
      rcases List.mem_cons.mp hid with he | hm
      · subst he
        rw [hbb] at hbb2
        cases hbb2
      · exact ih.2.2 id hm bb2 hbb2 ins hins
    · have heq1 : (sweep_blocks g (bbId :: rest)).1 =
          (sweep_blocks (update_bb (sweep_rev g bb.ins.reverse).1 bbId
            (fun b => { b with ins := (sweep_rev g bb.ins.reverse).2.1.reverse })) rest).1 := by
        conv_lhs => unfold sweep_blocks
        rw [hbb]
      have heq2 : (sweep_blocks g (bbId :: rest)).2 =
          ((sweep_rev g bb.ins.reverse).2.2 ||
            (sweep_blocks (update_bb (sweep_rev g bb.ins.reverse).1 bbId
              (fun b => { b with ins := (sweep_rev g bb.ins.reverse).2.1.reverse })) rest).2) := by
        conv_lhs => unfold sweep_blocks
        rw [hbb]
      rw [heq2] at hnd
      have hparts := Bool.or_eq_false_iff.mp hnd
      have hsr := sweep_rev_no_death bb.ins.reverse g hparts.1
      have hg2facts : (update_bb (sweep_rev g bb.ins.reverse).1 bbId
          (fun b => { b with ins := (sweep_rev g bb.ins.reverse).2.1.reverse })).facts =
            g.facts := by
        rw [update_bb_facts]
        exact hsr.2.1
      have hg2bb : ∀ x, get_bb (update_bb (sweep_rev g bb.ins.reverse).1 bbId
          (fun b => { b with ins := (sweep_rev g bb.ins.reverse).2.1.reverse })) x =
            get_bb g x := by
        intro x
        rw [get_bb_update_bb (sweep_rev g bb.ins.reverse).1 bbId
            (fun b => { b with ins := (sweep_rev g bb.ins.reverse).2.1.reverse })
            (fun b => rfl) x,
          get_bb_congr_blocks _ _ (sweep_rev_blocks bb.ins.reverse g) x]
        split
        · next hx =>
          subst hx
          rw [hbb]
          simp only [Option.map_some']
          rw [hsr.1, List.reverse_reverse]
        · rfl
      have ih := sweep_blocks_no_death rest _ hparts.2
      refine ⟨?_, ?_, ?_⟩
      · rw [heq1, ih.1, hg2facts]
      · intro x
        rw [heq1, ih.2.1 x, hg2bb x]
      · intro id hid bb2 hbb2 ins hins
        rcases List.mem_cons.mp hid with he | hm
        · subst he
          rw [hbb] at hbb2
          obtain rfl : bb = bb2 := Option.some.inj hbb2
          exact hsr.2.2 ins (List.mem_reverse.mpr hins)
        · have h3 := ih.2.2 id hm bb2 (by rw [hg2bb id]; exact hbb2) ins hins
          rwa [dead_check_congr _ g ins hg2facts] at h3

theorem sum_le_pointwise : ∀ (l : List Nat) (f u : Nat → Nat),
    (∀ x ∈ l, f x ≤ u x) → (l.map f).sum ≤ (l.map u).sum
  | [], _, _, _ => Nat.le_refl 0
  | a :: t, f, u, hp => by
    have h1 := hp a (List.mem_cons_self a t)
    have h2 := sum_le_pointwise t f u (fun x hx => hp x (List.mem_cons_of_mem a hx))
    simp only [List.map_cons, List.sum_cons]
    omega

theorem sum_lt_pointwise : ∀ (l : List Nat) (f u : Nat → Nat),
    (∀ x ∈ l, f x ≤ u x) → (∃ x ∈ l, f x < u x) →
    (l.map f).sum < (l.map u).sum
  | [], _, _, _, hex => absurd hex (by simp)
  | a :: t, f, u, hp, hex => by
    have h1 := hp a (List.mem_cons_self a t)
    have h2 := sum_le_pointwise t f u (fun x hx => hp x (List.mem_cons_of_mem a hx))
    simp only [List.map_cons, List.sum_cons]
    rcases hex with ⟨x, hx, hlt⟩
    rcases List.mem_cons.mp hx with he | hm
    · subst he
      omega
    · have h3 := sum_lt_pointwise t f u
        (fun y hy => hp y (List.mem_cons_of_mem a hy)) ⟨x, hm, hlt⟩
      omega

theorem sweep_blocks_len : ∀ (l : List Nat) (g : SpeshGraph),
    (∀ x, len_of (sweep_blocks g l).1 x ≤ len_of g x) ∧
    ((sweep_blocks g l).2 = true → ∃ x ∈ l, len_of (sweep_blocks g l).1 x < len_of g x)
  | [], g => ⟨fun x => Nat.le_refl _, fun h => by cases h⟩
  | bbId :: rest, g => by
    rcases hbb : get_bb g bbId with _ | bb
    · have heq : sweep_blocks g (bbId :: rest) = sweep_blocks g rest := by
        conv_lhs => unfold sweep_blocks
        rw [hbb]
      rw [heq]
      have ih := sweep_blocks_len rest g
      refine ⟨ih.1, fun h => ?_⟩
      rcases ih.2 h with ⟨x, hx, hlt⟩
      exact ⟨x, List.mem_cons_of_mem bbId hx, hlt⟩
    · have heq1 : (sweep_blocks g (bbId :: rest)).1 =
          (sweep_blocks (update_bb (sweep_rev g bb.ins.reverse).1 bbId
            (fun b => { b with ins := (sweep_rev g bb.ins.reverse).2.1.reverse })) rest).1 := by
        conv_lhs => unfold sweep_blocks
        rw [hbb]
      have heq2 : (sweep_blocks g (bbId :: rest)).2 =
          ((sweep_rev g bb.ins.reverse).2.2 ||
            (sweep_blocks (update_bb (sweep_rev g bb.ins.reverse).1 bbId
              (fun b => { b with ins := (sweep_rev g bb.ins.reverse).2.1.reverse })) rest).2) := by
        conv_lhs => unfold sweep_blocks
        rw [hbb]
      have hg2 : ∀ x, get_bb (update_bb (sweep_rev g bb.ins.reverse).1 bbId
          (fun b => { b with ins := (sweep_rev g bb.ins.reverse).2.1.reverse })) x =
            (if x = bbId then
              (get_bb g x).map
                (fun b => { b with ins := (sweep_rev g bb.ins.reverse).2.1.reverse })
             else get_bb g x) := by
        intro x
        rw [get_bb_update_bb (sweep_rev g bb.ins.reverse).1 bbId
            (fun b => { b with ins := (sweep_rev g bb.ins.reverse).2.1.reverse })
            (fun b => rfl) x,
          get_bb_congr_blocks _ _ (sweep_rev_blocks bb.ins.reverse g) x]
      have hsl := sweep_rev_len bb.ins.reverse g
      have hle2 : ∀ x, len_of (update_bb (sweep_rev g bb.ins.reverse).1 bbId
          (fun b => { b with ins := (sweep_rev g bb.ins.reverse).2.1.reverse })) x ≤
            len_of g x := by
        intro x
        unfold len_of
        rw [hg2 x]
        split
        · next hx =>
          subst hx
          simp only [hbb, Option.map_some', Option.getD_some, List.length_reverse]
          have h1 := hsl.1
          rwa [List.length_reverse] at h1
        · exact Nat.le_refl _
      have hlt2 : (sweep_rev g bb.ins.reverse).2.2 = true →
          len_of (update_bb (sweep_rev g bb.ins.reverse).1 bbId
            (fun b => { b with ins := (sweep_rev g bb.ins.reverse).2.1.reverse })) bbId <
              len_of g bbId := by
        intro hd
        unfold len_of
        rw [hg2 bbId, if_pos rfl]
        simp only [hbb, Option.map_some', Option.getD_some, List.length_reverse]
        have h1 := hsl.2 hd
        rwa [List.length_reverse] at h1
      have ih := sweep_blocks_len rest (update_bb (sweep_rev g bb.ins.reverse).1 bbId
        (fun b => { b with ins := (sweep_rev g bb.ins.reverse).2.1.reverse }))
      constructor
      · intro x
        rw [heq1]
        exact (ih.1 x).trans (hle2 x)
      · intro hdall
        rw [heq2] at hdall
        rcases Bool.or_eq_true_iff.mp hdall with hr | ht
        · refine ⟨bbId, List.mem_cons_self bbId rest, ?_⟩
          rw [heq1]
          exact Nat.lt_of_le_of_lt (ih.1 bbId) (hlt2 hr)
        · rcases ih.2 ht with ⟨x, hx, hlt⟩
          refine ⟨x, List.mem_cons_of_mem bbId hx, ?_⟩
          rw [heq1]
          exact Nat.lt_of_lt_of_le hlt (hle2 x)

theorem ins_count_eq (g : SpeshGraph) : ins_count g = (g.chain.map (len_of g)).sum := rfl

theorem sweep_decreases (g : SpeshGraph) (h : (dead_ins_sweep g).2 = true) :
    ins_count (dead_ins_sweep g).1 < ins_count g := by
  have hchain : (dead_ins_sweep g).1.chain = g.chain := sweep_blocks_chain g.chain g
  have hl := sweep_blocks_len g.chain g
  rw [ins_count_eq, ins_count_eq, hchain]
  exact sum_lt_pointwise g.chain _ _ (fun x _ => hl.1 x) (hl.2 h)

theorem loop_succ (n : Nat) (g : SpeshGraph) :
    eliminate_dead_ins_loop (n + 1) g =
      (if (dead_ins_sweep g).2 then eliminate_dead_ins_loop n (dead_ins_sweep g).1
       else (dead_ins_sweep g).1) := rfl

theorem loop_no_dead : ∀ (n : Nat) (g : SpeshGraph), ins_count g < n →
    ∀ id ∈ (eliminate_dead_ins_loop n g).chain, ∀ bb : SpeshBB,
      get_bb (eliminate_dead_ins_loop n g) id = some bb →
      ∀ ins ∈ bb.ins, dead_check (eliminate_dead_ins_loop n g) ins = false
  | 0, g, h => absurd h (Nat.not_lt_zero _)
  | n + 1, g, h => by
    rw [loop_succ]
    cases hd : (dead_ins_sweep g).2
    · rw [if_neg (fun hc : (false : Bool) = true => by cases hc)]
      intro id hid bb hbb ins hins
      have hnd := sweep_blocks_no_death g.chain g hd
      have hid2 : id ∈ g.chain := by
        have hc : (dead_ins_sweep g).1.chain = g.chain := sweep_blocks_chain g.chain g
        rwa [hc] at hid
      have hbb2 : get_bb g id = some bb := by
        rw [← hnd.2.1 id]
        exact hbb
      have hfin := hnd.2.2 id hid2 bb hbb2 ins hins
      exact (dead_check_congr _ g ins hnd.1).trans hfin
    · rw [if_pos rfl]
      exact loop_no_dead n (dead_ins_sweep g).1
        (Nat.lt_of_lt_of_le (sweep_decreases g hd) (Nat.lt_succ_iff.mp h))

/-- C6: after eliminate_dead_ins runs to its fixed point no instruction on the
linear chain is a PHI, or a pure instruction whose first operand descriptor is
a register write, with zero remaining usages on the written register; and on
the pure cascade r1 := pure(); r2 := pure(r1); r3 := pure(r2) with usages of
r3 equal to 0 and all three pure, all three instructions are deleted. -/
theorem C6_eliminate_dead_ins :
    (∀ (g : SpeshGraph), ∀ id ∈ (eliminate_dead_ins g).chain, ∀ bb : SpeshBB,
      get_bb (eliminate_dead_ins g) id = some bb → ∀ ins ∈ bb.ins,
      ¬((ins.info.opcode = Op.phi ∨
          (ins.info.pure = true ∧ spec_at ins.info 0 = OperandSpec.write_reg)) ∧
        (get_facts_direct (eliminate_dead_ins g) (ins.opnd 0)).usages = 0)) ∧
    get_bb (eliminate_dead_ins c6_graph) 0 = some ⟨0, 0, [], [], [], false⟩ := by
  constructor
  · intro g id hid bb hbb ins hins
    have h := loop_no_dead (ins_count g + 1) g (Nat.lt_succ_self _) id hid bb hbb ins hins
    exact (dead_check_eq_false_iff (eliminate_dead_ins g) ins).mp h
  · decide

theorem C6_eliminate_dead_ins_witness :
    0 ∈ (eliminate_dead_ins c1_graph).chain ∧
    get_bb (eliminate_dead_ins c1_graph) 0 =
      some ⟨0, 0, [c1_insA, c1_insB, c1_insC], [], [], false⟩ ∧
    c1_insA ∈ ([c1_insA, c1_insB, c1_insC] : List Ins) ∧
    ¬((c1_insA.info.opcode = Op.phi ∨
        (c1_insA.info.pure = true ∧ spec_at c1_insA.info 0 = OperandSpec.write_reg)) ∧
      (get_facts_direct (eliminate_dead_ins c1_graph) (c1_insA.opnd 0)).usages = 0) :=
  ⟨by decide, by decide, by decide,
    C6_eliminate_dead_ins.1 c1_graph 0 (by decide)
      ⟨0, 0, [c1_insA, c1_insB, c1_insC], [], [], false⟩ (by decide) c1_insA (by decide)⟩

end MoarSpesh
